import Mathlib

set_option maxHeartbeats 1000000

/-!
Verification development for the scraping orchestration engine of the
simple_pipeline repository.  The definitions below are a shallow embedding of
the Python source:

* src/backend/app/scraper/manager.py       (ScraperManager.scrape_keyword)
* src/backend/app/routes/scraping.py       (background_scrape_task, upload_csv,
                                            cancel_task)
* src/backend/app/storage/r2_storage.py    (R2Storage.upload_file, generate_r2_key)

Database sessions are modelled as a pair of committed and pending (flushed but
uncommitted) row lists; external collaborators (the three content-source
adapters, the R2 object store, yt-dlp downloads) are modelled as environment
parameters, since the orchestration code only observes their results.
-/

namespace Pipeline

/-- Python str.strip() with no argument: remove leading and trailing
whitespace. -/
def pyStrip (s : String) : String :=
  String.mk (((s.toList.dropWhile Char.isWhitespace).reverse.dropWhile
    Char.isWhitespace).reverse)

/-- Python str.lower(). -/
def pyLower (s : String) : String := String.mk (s.toList.map Char.toLower)

/-- Python str.endswith(pat). -/
def pyEndsWith (s pat : String) : Bool := pat.toList.isSuffixOf s.toList

/-- Content types stored in the database (app/database.py, ContentType enum). -/
inductive ContentType
  | pdf
  | image
  | youtube
deriving DecidableEq

/-- One row of the scraped_items table (app/database.py, ScrapedItem),
restricted to the columns the orchestration logic reads or writes. -/
structure ScrapedItem where
  keyword : String
  url : String
  contentType : ContentType
  title : String
  description : String
  contentHash : Option String
  r2Url : Option String
  r2Key : Option String
  taskId : Option String
  sourceFile : Option String
deriving DecidableEq

/-- A SQLAlchemy session over the scraped_items table: the committed rows plus
the rows that were added and flushed but not yet committed.  db.commit appends
the pending rows to the durable store; db.rollback drops them. -/
structure DB where
  committed : List ScrapedItem
  pending : List ScrapedItem
deriving DecidableEq

/-- Everything the session currently sees (committed rows plus flushed rows):
this is what db.query returns inside one session. -/
def DB.session (db : DB) : List ScrapedItem := db.committed ++ db.pending

/-- db.commit(): pending rows become durable. -/
def commitDB (db : DB) : DB := ⟨db.committed ++ db.pending, []⟩

/-- db.rollback(): pending rows are discarded, committed rows are untouched. -/
def rollbackDB (db : DB) : DB := ⟨db.committed, []⟩

/-- db.add(item) followed by db.flush(): the row joins the session pending list. -/
def addFlush (it : ScrapedItem) (db : DB) : DB := ⟨db.committed, db.pending ++ [it]⟩

/-- Mutating the most recently flushed row to attach r2_url / r2_key
(manager.py sets db_item.r2_url and db_item.r2_key on the flushed item
before committing). -/
def setR2Last (u : Option String) (k : String) (db : DB) : DB :=
  match db.pending.getLast? with
  | none => db
  | some it => ⟨db.committed, db.pending.dropLast ++ [{ it with r2Url := u, r2Key := some k }]⟩

/-- One candidate returned by a content-source adapter search call. -/
structure AdapterItem where
  url : String
  title : String
  description : String
deriving DecidableEq

/-- Result of one R2Storage.upload_file call as seen by the manager:
either a (r2_url, r2_key) pair with the key set, a (None, None) return,
or an exception escaping the call. -/
inductive UploadOutcome
  | success (r2Url : Option String) (r2Key : String)
  | noKey
  | raisesExc
deriving DecidableEq

/-- The external environment one scrape_keyword call runs against:
R2 availability, per-URL yt-dlp download success, per-URL upload outcome,
and per-URL database flush failure (the representative database error). -/
structure ScrapeEnv where
  r2Available : Bool
  videoDownloadOk : String → Bool
  upload : String → UploadOutcome
  flushFails : String → Bool

/-- app/config.py: MAX_RESULTS_PER_KEYWORD = 2. -/
def MAX_RESULTS_PER_KEYWORD : Nat := 2

/-- app/config.py: MAX_PDF_RESULTS_PER_KEYWORD = 9999. -/
def MAX_PDF_RESULTS_PER_KEYWORD : Nat := 9999

/-- The (r2_url, r2_key) pair when the upload succeeded with a key, none
otherwise. -/
def uploadOk (env : ScrapeEnv) (u : String) : Option (Option String × String) :=
  match env.upload u with
  | .success r k => some (r, k)
  | .noKey => none
  | .raisesExc => none

/-- The R2 mirroring step shared by the image and PDF item paths
(manager.py lines 207-236 and 295-324): on success attach the key and commit;
on a (None, None) return, an exception, or an unavailable store, still commit
the row without a key. -/
def uploadCommitR2 (env : ScrapeEnv) (u : String) (db : DB) : DB :=
  if env.r2Available then
    match env.upload u with
    | .success r2u r2k => commitDB (setR2Last r2u r2k db)
    | .noKey => commitDB db
    | .raisesExc => commitDB db
  else commitDB db

/-- The R2 mirroring step for YouTube items (manager.py lines 101-154):
download the video first; on upload success attach the key and commit; if the
upload returns no key the row is left pending (no commit on that branch); on a
download failure, an exception, or an unavailable store, commit without a key. -/
def youtubeR2 (env : ScrapeEnv) (u : String) (db : DB) : DB :=
  if env.r2Available then
    if env.videoDownloadOk u then
      match env.upload u with
      | .success r2u r2k => commitDB (setR2Last r2u r2k db)
      | .noKey => db
      | .raisesExc => commitDB db
    else commitDB db
  else commitDB db

deriving instance DecidableEq for Except

/-- The per-keyword result counters returned by scrape_keyword. -/
structure Counts where
  pdf : Nat
  image : Nat
  youtube : Nat
deriving DecidableEq

/-- State threaded through the three per-content-type loops of scrape_keyword:
the session, the per-keyword URL set, and the counters. -/
structure LoopState where
  db : DB
  keywordUrls : List String
  counts : Counts
deriving DecidableEq

/-- Result of one content-type loop: either the final state, or the database
state at the point an uncaught exception (a flush failure) was raised. -/
inductive LoopOut
  | ok (ls : LoopState)
  | err (db : DB) (msg : String)

/-- The keyword-validation guard of manager.py
(allowed_keywords is not None and keyword not in allowed_keywords). -/
def allowedBlocks (al : Option (List String)) (kw : String) : Bool :=
  match al with
  | some l => decide (kw ∉ l)
  | none => false

/-- The YouTube loop of scrape_keyword (manager.py lines 67-164).  ex is the
existing_youtube_urls set loaded from the database; a flush failure raises out
of the loop. -/
def youtubeLoop (env : ScrapeEnv) (kw : String) (tid : Option String)
    (al : Option (List String)) (sf : Option String) :
    List AdapterItem → List String → LoopState → LoopOut
  | [], _, ls => .ok ls
  | item :: rest, ex, ls =>
    let u := item.url
    if u ∈ ex then youtubeLoop env kw tid al sf rest ex ls
    else if u ∈ ls.keywordUrls then youtubeLoop env kw tid al sf rest ex ls
    else if allowedBlocks al kw then youtubeLoop env kw tid al sf rest ex ls
    else if env.flushFails u then .err ls.db "db error"
    else
      let dbItem : ScrapedItem :=
        { keyword := kw, url := u, contentType := .youtube, title := item.title,
          description := item.description, contentHash := some (u.take 64),
          r2Url := none, r2Key := none, taskId := tid, sourceFile := sf }
      let db2 := youtubeR2 env u (addFlush dbItem ls.db)
      let cnts : Counts := { ls.counts with youtube := ls.counts.youtube + 1 }
      let ls2 : LoopState := ⟨db2, u :: ls.keywordUrls, cnts⟩
      if MAX_RESULTS_PER_KEYWORD ≤ cnts.youtube then .ok ls2
      else youtubeLoop env kw tid al sf rest (u :: ex) ls2

/-- The image loop of scrape_keyword (manager.py lines 167-245). -/
def imageLoop (env : ScrapeEnv) (kw : String) (tid : Option String)
    (al : Option (List String)) (sf : Option String) :
    List AdapterItem → List String → LoopState → LoopOut
  | [], _, ls => .ok ls
  | item :: rest, ex, ls =>
    let u := item.url
    if u ∈ ex then imageLoop env kw tid al sf rest ex ls
    else if u ∈ ls.keywordUrls then imageLoop env kw tid al sf rest ex ls
    else if allowedBlocks al kw then imageLoop env kw tid al sf rest ex ls
    else if env.flushFails u then .err ls.db "db error"
    else
      let dbItem : ScrapedItem :=
        { keyword := kw, url := u, contentType := .image, title := item.title,
          description := item.description, contentHash := none,
          r2Url := none, r2Key := none, taskId := tid, sourceFile := sf }
      let db2 := uploadCommitR2 env u (addFlush dbItem ls.db)
      let cnts : Counts := { ls.counts with image := ls.counts.image + 1 }
      let ls2 : LoopState := ⟨db2, u :: ls.keywordUrls, cnts⟩
      if MAX_RESULTS_PER_KEYWORD ≤ cnts.image then .ok ls2
      else imageLoop env kw tid al sf rest (u :: ex) ls2

/-- The PDF loop of scrape_keyword (manager.py lines 248-340).  Each item is
wrapped in its own try/except, so a database error there is caught and the
loop continues with the next item (lines 336-340); the loop itself never
raises. -/
def pdfLoop (env : ScrapeEnv) (kw : String) (tid : Option String)
    (al : Option (List String)) (sf : Option String) :
    List AdapterItem → List String → LoopState → LoopState
  | [], _, ls => ls
  | item :: rest, ex, ls =>
    let u := item.url
    if u = "" then pdfLoop env kw tid al sf rest ex ls
    else if u ∈ ex then pdfLoop env kw tid al sf rest ex ls
    else if u ∈ ls.keywordUrls then pdfLoop env kw tid al sf rest ex ls
    else if allowedBlocks al kw then pdfLoop env kw tid al sf rest ex ls
    else if env.flushFails u then pdfLoop env kw tid al sf rest ex ls
    else
      let dbItem : ScrapedItem :=
        { keyword := kw, url := u, contentType := .pdf, title := item.title.take 500,
          description := item.description.take 1000, contentHash := none,
          r2Url := none, r2Key := none, taskId := tid, sourceFile := sf }
      let db2 := uploadCommitR2 env u (addFlush dbItem ls.db)
      let cnts : Counts := { ls.counts with pdf := ls.counts.pdf + 1 }
      let ls2 : LoopState := ⟨db2, u :: ls.keywordUrls, cnts⟩
      if MAX_PDF_RESULTS_PER_KEYWORD ≤ cnts.pdf then ls2
      else pdfLoop env kw tid al sf rest (u :: ex) ls2

/-- The URLs already present in a row list for one content type
(the db.query(ScrapedItem.url).filter(content_type == ...) scans of
manager.py lines 44-54). -/
def typeUrls (ct : ContentType) (items : List ScrapedItem) : List String :=
  (items.filter (fun it => decide (it.contentType = ct))).map (fun it => it.url)

/-- ScraperManager.scrape_keyword (manager.py lines 22-353): validate the
keyword, load the per-content-type existing URL sets, run the three
content-type loops in the fixed order YouTube, image, PDF, then commit; on an
uncaught exception roll back and re-raise.  The adapter result lists are
inputs, since the adapters are external collaborators.  The source also
collects an existing_hashes set (lines 56-58, 158) that is never read by any
decision, so it is omitted here. -/
def scrape_keyword (env : ScrapeEnv) (kw : String)
    (scrapePdf scrapeImage scrapeYoutube : Bool)
    (tid : Option String) (al : Option (List String)) (sf : Option String)
    (ytItems imgItems pdfItems : List AdapterItem) (db : DB) :
    DB × Except String Counts :=
  if allowedBlocks al kw then (db, .ok ⟨0, 0, 0⟩)
  else
    let exPdf := if scrapePdf then typeUrls .pdf db.session else []
    let exImg := if scrapeImage then typeUrls .image db.session else []
    let exYt := if scrapeYoutube then typeUrls .youtube db.session else []
    let ls0 : LoopState := ⟨db, [], ⟨0, 0, 0⟩⟩
    match (if scrapeYoutube then youtubeLoop env kw tid al sf ytItems exYt ls0 else .ok ls0) with
    | .err d e => (rollbackDB d, .error e)
    | .ok ls1 =>
      match (if scrapeImage then imageLoop env kw tid al sf imgItems exImg ls1 else .ok ls1) with
      | .err d e => (rollbackDB d, .error e)
      | .ok ls2 =>
        let ls3 := if scrapePdf then pdfLoop env kw tid al sf pdfItems exPdf ls2 else ls2
        (commitDB ls3.db, .ok ls3.counts)

/-- The (url, content_type) key of every row the session sees; the dedup
invariant says this list has no duplicates. -/
def keys (db : DB) : List (String × ContentType) :=
  db.session.map (fun it => (it.url, it.contentType))

/-! ## Content-source adapter call wrappers

Each adapter's search method runs its body inside a try/except; the claims
cite youtube_scraper.py lines 130-134 (except returns the empty list),
image_scraper.py lines 166-169 (except falls through and the items collected
so far are returned) and pdf_scraper.py line 161 (items[:max_results] is
returned on every path).  An AdapterCall records whether the body raised, and
if so which items had already been collected. -/

/-- One call to an adapter's search: the body either ran to completion or
raised with some items already collected. -/
inductive AdapterCall
  | ok (items : List AdapterItem)
  | raised (partialItems : List AdapterItem)

/-- YouTubeScraper.search: the except block returns the empty list. -/
def youtubeSearch : AdapterCall → List AdapterItem
  | .ok l => l
  | .raised _ => []

/-- ImageScraper.search: the except block only logs, so the items collected
before the exception are returned (nothing was collected when the failure
preceded collection). -/
def imageSearch : AdapterCall → List AdapterItem
  | .ok l => l
  | .raised l => l

/-- PDFScraper.search: both exits return items[:max_results]. -/
def pdfSearch (maxResults : Nat) : AdapterCall → List AdapterItem
  | .ok l => l.take maxResults
  | .raised l => l.take maxResults

/-! ## Task registry and orchestrator (routes/scraping.py)

The scraping_progress dict, the cancelled_tasks set, background_scrape_task
and cancel_task are modelled as a small-step system: one step either runs the
orchestrator up to its next keyword boundary (the body of the per-keyword for
loop is atomic with respect to the registry writes the claims talk about), or
executes one cancel_task request. -/

/-- One entry of the scraping_progress dict (the fields written by
upload_csv lines 267-282 and background_scrape_task lines 92-153). -/
structure TaskProgress where
  keyword : String
  totalKeywords : Nat
  currentKeywordIndex : Nat
  pdfCount : Nat
  imageCount : Nat
  youtubeCount : Nat
  status : String
  allowedKeywords : List String
  resumableMode : Bool
  newKeywordsCount : Nat
  skippedKeywordsCount : Nat
  allKeywordsScraped : Bool
deriving DecidableEq

/-- The fixed data of one background_scrape_task invocation: task id, the
keywords_to_process list, the content-type flags, the allow-list and
keyword-to-file map stored in the task metadata, the scrape environment and
the per-keyword adapter call results. -/
structure RunSpec where
  tid : String
  keywords : List String
  scrapePdf : Bool
  scrapeImage : Bool
  scrapeYoutube : Bool
  allowed : List String
  keywordToFile : String → Option String
  env : ScrapeEnv
  ytOf : String → AdapterCall
  imgOf : String → AdapterCall
  pdfOf : String → AdapterCall
  resumableMode : Bool
  newKeywordsCount : Nat
  skippedKeywordsCount : Nat
  allKeywordsScraped : Bool

/-- background_scrape_task lines 41-48: the allow-list read from the task
metadata, falling back to the keyword list itself when the stored set is
empty. -/
def effAllowed (spec : RunSpec) : List String :=
  if spec.allowed.isEmpty then spec.keywords else spec.allowed

/-- Lookup in the scraping_progress dict. -/
def lookupTP (t : String) : List (String × TaskProgress) → Option TaskProgress
  | [] => none
  | (k, p) :: rest => if k = t then some p else lookupTP t rest

/-- Assignment scraping_progress[t] = p (replace or append). -/
def upsertTP (t : String) (p : TaskProgress) :
    List (String × TaskProgress) → List (String × TaskProgress)
  | [] => [(t, p)]
  | (k, q) :: rest => if k = t then (k, p) :: rest else (k, q) :: upsertTP t p rest

/-- Assignment to the status field of the entry with the given key. -/
def setStatusTP (t st : String) : List (String × TaskProgress) →
    List (String × TaskProgress)
  | [] => []
  | (k, p) :: rest =>
    if k = t then (k, { p with status := st }) :: setStatusTP t st rest
    else (k, p) :: setStatusTP t st rest

/-- Whole-process state: the scraping_progress dict, the cancelled_tasks set,
the database, and the control position of the one background job being
modelled (jobIdx is the index of the next keyword; jobDone means the coroutine
has returned). -/
structure SystemState where
  progress : List (String × TaskProgress)
  cancelled : List String
  db : DB
  jobIdx : Nat
  jobDone : Bool

/-- The default dict value for scraping_progress.get(task_id, ...). -/
def emptyTP : TaskProgress :=
  { keyword := "", totalKeywords := 0, currentKeywordIndex := 0, pdfCount := 0,
    imageCount := 0, youtubeCount := 0, status := "", allowedKeywords := [],
    resumableMode := false, newKeywordsCount := 0, skippedKeywordsCount := 0,
    allKeywordsScraped := false }

/-- One orchestrator step of background_scrape_task (lines 68-159): run the
body of the per-keyword for loop once, or — when the loop is exhausted or was
broken out of — the line 151 assignment that unconditionally sets the status
to completed. -/
def orchStep (spec : RunSpec) (s : SystemState) : SystemState :=
  if s.jobDone then s
  else if h : s.jobIdx < spec.keywords.length then
    -- lines 71-74: the cancellation check at the keyword boundary.  The break
    -- first records status cancelled (line 73); control then falls through to
    -- line 151, which overwrites the status with completed.
    if spec.tid ∈ s.cancelled then
      let s1 := { s with progress := setStatusTP spec.tid "cancelled" s.progress }
      let s2 := { s1 with progress := setStatusTP spec.tid "completed" s1.progress }
      { s2 with jobDone := true }
    else
      let kw := pyStrip spec.keywords[s.jobIdx]
      -- lines 76-78: skip blank keywords
      if kw = "" then { s with jobIdx := s.jobIdx + 1 }
      -- lines 81-85: skip keywords outside the allow-list
      else if kw ∈ effAllowed spec then
        -- lines 92-116: record the current keyword, preserving the counters
        let p0 := (lookupTP spec.tid s.progress).getD emptyTP
        let p1 := { p0 with keyword := kw, totalKeywords := spec.keywords.length,
                            currentKeywordIndex := s.jobIdx + 1, status := "processing" }
        -- line 119: source file for this keyword
        let sf := (spec.keywordToFile kw).getD "unknown"
        -- lines 121-124: scrape the keyword
        let r := scrape_keyword spec.env kw spec.scrapePdf spec.scrapeImage
                  spec.scrapeYoutube (some spec.tid) (some (effAllowed spec)) (some sf)
                  (youtubeSearch (spec.ytOf kw)) (imageSearch (spec.imgOf kw))
                  (pdfSearch MAX_PDF_RESULTS_PER_KEYWORD (spec.pdfOf kw)) s.db
        match r.2 with
        | .ok c =>
          -- lines 127-141: add the returned counts to the running totals
          let p2 := { p1 with pdfCount := p1.pdfCount + c.pdf,
                              imageCount := p1.imageCount + c.image,
                              youtubeCount := p1.youtubeCount + c.youtube }
          { s with progress := upsertTP spec.tid p2 s.progress, db := r.1,
                   jobIdx := s.jobIdx + 1 }
        | .error e =>
          -- lines 154-156: the exception escapes the loop and the status
          -- becomes the error message
          let pr1 := upsertTP spec.tid p1 s.progress
          { s with progress := setStatusTP spec.tid ("error: " ++ e) pr1,
                   db := r.1, jobDone := true }
      else { s with jobIdx := s.jobIdx + 1 }
  else
    -- line 151: after the loop the status is set to completed
    { s with progress := setStatusTP spec.tid "completed" s.progress, jobDone := true }

/-- cancel_task (routes/scraping.py lines 319-331): 404 on an unknown id,
no-op when the status is exactly completed, cancelled or error (an error
status produced by the orchestrator is the string error-colon-message, which
this comparison does not match), otherwise add the id to cancelled_tasks and
set the status to cancelled. -/
def cancelReq (t : String) (s : SystemState) : SystemState :=
  match lookupTP t s.progress with
  | none => s
  | some p =>
    if p.status = "completed" ∨ p.status = "cancelled" ∨ p.status = "error" then s
    else { s with cancelled := t :: s.cancelled,
                  progress := setStatusTP t "cancelled" s.progress }

/-- An external event: one orchestrator step or one cancel request. -/
inductive Event
  | orch
  | cancel (t : String)

/-- Apply one event. -/
def stepEv (spec : RunSpec) (s : SystemState) : Event → SystemState
  | .orch => orchStep spec s
  | .cancel t => cancelReq t s

/-- Run a trace of events. -/
def runTrace (spec : RunSpec) (s : SystemState) (evs : List Event) : SystemState :=
  evs.foldl (stepEv spec) s

/-- The scraping_progress entry created for a task by upload_csv
(lines 267-282). -/
def initProgress (spec : RunSpec) : TaskProgress :=
  { keyword := "", totalKeywords := spec.keywords.length, currentKeywordIndex := 0,
    pdfCount := 0, imageCount := 0, youtubeCount := 0, status := "processing",
    allowedKeywords := spec.allowed, resumableMode := spec.resumableMode,
    newKeywordsCount := spec.newKeywordsCount,
    skippedKeywordsCount := spec.skippedKeywordsCount,
    allKeywordsScraped := spec.allKeywordsScraped }

/-- The process state right after upload_csv registered the task and scheduled
the background job; the session starts with no pending rows. -/
def initState (spec : RunSpec) (store : List ScrapedItem) : SystemState :=
  { progress := [(spec.tid, initProgress spec)], cancelled := [],
    db := ⟨store, []⟩, jobIdx := 0, jobDone := false }

/-- n orchestrator steps with no interleaved requests. -/
def orchN (spec : RunSpec) : Nat → SystemState → SystemState
  | 0, s => s
  | n + 1, s => orchN spec n (orchStep spec s)

/-- A full undisturbed run of the background job: one step per keyword plus
the final loop-exit step. -/
def completeRun (spec : RunSpec) (store : List ScrapedItem) : SystemState :=
  orchN spec (spec.keywords.length + 1) (initState spec store)

/-! ## Upload endpoint (upload_csv, routes/scraping.py lines 161-305)

CSV parsing is out of scope; an uploaded file is its name plus the stripped,
non-blank keyword column it contained (line 186 already filters blanks). -/

/-- One uploaded keyword file. -/
structure CsvFile where
  filename : String
  keywords : List String
deriving DecidableEq

/-- All keywords in upload order (the all_keywords list, line 190). -/
def allKeywordsOf (files : List CsvFile) : List String :=
  (files.map (fun f => f.keywords)).flatten

/-- Registering one file's keywords in the keyword_to_file dict
(lines 187-189): every keyword of the file is (re)assigned to that file's
name. -/
def ktfAddFile (f : CsvFile) (m : String → Option String) : String → Option String :=
  f.keywords.foldl (fun m' k => fun q => if q = k then some f.filename else m' q) m

/-- The keyword_to_file dict (lines 174-190): built file by file, so a keyword
appearing in several files ends up mapped to the last file containing it. -/
def ktfOf (files : List CsvFile) : String → Option String :=
  files.foldl (fun m f => ktfAddFile f m) (fun _ => none)

/-- The dedup loop of lines 196-202: keep the first occurrence of each
keyword, preserving order; seen is the set of keywords already kept. -/
def dedupFirstAux (seen : List String) : List String → List String
  | [] => []
  | k :: rest =>
    if k ∈ seen then dedupFirstAux seen rest
    else k :: dedupFirstAux (k :: seen) rest

/-- The unique_keywords list (lines 196-202). -/
def uniqueKeywordsOf (files : List CsvFile) : List String :=
  dedupFirstAux [] (allKeywordsOf files)

/-- The resumability probe of lines 218-221: does any committed item match
(keyword, source_file)? -/
def keywordScraped (store : List ScrapedItem) (k sf : String) : Bool :=
  store.any (fun it => decide (it.keyword = k) && decide (it.sourceFile = some sf))

/-- The new_keywords list (lines 212-226). -/
def newKeywordsOf (files : List CsvFile) (store : List ScrapedItem) : List String :=
  (uniqueKeywordsOf files).filter
    (fun k => ! keywordScraped store k ((ktfOf files k).getD "unknown"))

/-- The already_scraped_keywords set (lines 212-224), kept in list order. -/
def alreadyScrapedOf (files : List CsvFile) (store : List ScrapedItem) : List String :=
  (uniqueKeywordsOf files).filter
    (fun k => keywordScraped store k ((ktfOf files k).getD "unknown"))

/-- resumable_mode (line 230). -/
def resumableModeOf (files : List CsvFile) (store : List ScrapedItem) : Bool :=
  ! (alreadyScrapedOf files store).isEmpty

/-- keywords_to_process (line 231). -/
def keywordsToProcessOf (files : List CsvFile) (store : List ScrapedItem) : List String :=
  if resumableModeOf files store then newKeywordsOf files store else uniqueKeywordsOf files

/-- The RunSpec registered by upload_csv for an upload: keywords_to_process,
the full unique keyword list as the allow-list (line 264), the
keyword-to-file map, and the resumability metadata (lines 267-282). -/
def specOfUpload (files : List CsvFile) (store : List ScrapedItem) (tid : String)
    (scrapePdf scrapeImage scrapeYoutube : Bool) (env : ScrapeEnv)
    (ytOf imgOf pdfOf : String → AdapterCall) : RunSpec :=
  { tid := tid, keywords := keywordsToProcessOf files store,
    scrapePdf := scrapePdf, scrapeImage := scrapeImage, scrapeYoutube := scrapeYoutube,
    allowed := uniqueKeywordsOf files, keywordToFile := ktfOf files, env := env,
    ytOf := ytOf, imgOf := imgOf, pdfOf := pdfOf,
    resumableMode := resumableModeOf files store,
    newKeywordsCount := (newKeywordsOf files store).length,
    skippedKeywordsCount :=
      if resumableModeOf files store then (alreadyScrapedOf files store).length else 0,
    allKeywordsScraped :=
      resumableModeOf files store && (newKeywordsOf files store).isEmpty }

/-! ## Object store adapter (R2Storage.upload_file, storage/r2_storage.py) -/

/-- The settings upload_file consults. -/
structure R2Settings where
  available : Bool
  publicURL : String
  maxDownloadSizeMB : Nat

/-- What fetching the content yielded: a readable local file of some size, an
HTTP response with a status and a body size, or an exception raised anywhere
in the try block (a botocore ClientError or any other exception). -/
inductive FetchResult
  | localFile (bytes : Nat)
  | http (status : Nat) (bytes : Nat)
  | raised
deriving DecidableEq

/-- R2Storage.get_file_extension (r2_storage.py lines 65-85). -/
def get_file_extension (contentType url : String) : String :=
  if contentType = "youtube" then ".mp4"
  else if contentType = "pdf" then ".pdf"
  else if contentType = "image" then
    let u := pyLower url
    if pyEndsWith u ".png" then ".png"
    else if pyEndsWith u ".gif" then ".gif"
    else if pyEndsWith u ".webp" then ".webp"
    else ".jpg"
  else ".bin"

/-- The content-type directory of generate_r2_key (lines 100-104). -/
def contentTypeDir (contentType : String) : String :=
  let c := pyLower contentType
  if c = "pdf" then "pdfs"
  else if c = "image" then "images"
  else if c = "youtube" then "youtube"
  else "other"

/-- The keyword sanitisation of generate_r2_key (lines 92-94): keep
alphanumerics, spaces, hyphens and underscores from the first 50 characters,
replacing everything else — and then every space — with an underscore (the
second map is the replace of a single-character pattern). -/
def sanitizeKeyword (kw : String) : String :=
  String.mk (((kw.toList.take 50).map
    (fun c => if c.isAlphanum ∨ c = ' ' ∨ c = '-' ∨ c = '_' then c else '_')).map
    (fun c => if c = ' ' then '_' else c))

/-- R2Storage.generate_r2_key (lines 87-111); the md5 digest of the URL is an
input since hashing is outside the model.  A Python falsy item_id (absent or
zero) selects the keyword-hash path. -/
def generate_r2_key (keyword contentType url : String) (itemId : Option Nat)
    (urlHash : String) : String :=
  let safe := sanitizeKeyword keyword
  let ext := get_file_extension contentType url
  let dir := contentTypeDir contentType
  let _ := url
  if itemId.getD 0 ≠ 0 then
    dir ++ "/item_" ++ toString (itemId.getD 0) ++ "_" ++ safe ++ ext
  else
    dir ++ "/" ++ safe ++ "_" ++ contentType ++ "_" ++ urlHash ++ ext

/-- R2Storage.upload_file (lines 113-215): guard on availability, fetch the
content, reject non-200 statuses and oversized files, upload, and return the
public URL and key; every failure path — unavailable store, failed download,
size-limit violation, or an exception — returns the pair (none, none) instead
of raising. -/
def upload_file (st : R2Settings) (fetch : FetchResult) (urlHash : String)
    (url keyword contentType : String) (itemId : Option Nat) :
    Option String × Option String :=
  if ! st.available then (none, none)
  else
    match fetch with
    | .raised => (none, none)
    | .localFile n =>
      if st.maxDownloadSizeMB * 1024 * 1024 < n then (none, none)
      else
        let key := generate_r2_key keyword contentType url itemId urlHash
        let r2url :=
          if st.publicURL ≠ "" then some (st.publicURL ++ "/" ++ key) else none
        (r2url, some key)
    | .http status n =>
      if status ≠ 200 then (none, none)
      else if st.maxDownloadSizeMB * 1024 * 1024 < n then (none, none)
      else
        let key := generate_r2_key keyword contentType url itemId urlHash
        let r2url :=
          if st.publicURL ≠ "" then some (st.publicURL ++ "/" ++ key) else none
        (r2url, some key)

/-! ## Derived notions used by the statements -/

/-- The final shape of a flushed YouTube row after its mirroring step: the R2
fields are attached exactly when the store is available, the video downloaded
and the upload returned a key. -/
def ytFinalItem (env : ScrapeEnv) (u : String) (it : ScrapedItem) : ScrapedItem :=
  if env.r2Available then
    if env.videoDownloadOk u then
      match env.upload u with
      | .success r2u r2k => { it with r2Url := r2u, r2Key := some r2k }
      | .noKey => it
      | .raisesExc => it
    else it
  else it

/-- The final shape of a flushed image or PDF row after its mirroring step. -/
def imgFinalItem (env : ScrapeEnv) (u : String) (it : ScrapedItem) : ScrapedItem :=
  if env.r2Available then
    match env.upload u with
    | .success r2u r2k => { it with r2Url := r2u, r2Key := some r2k }
    | .noKey => it
    | .raisesExc => it
  else it

/-- Item-level facts guaranteed for every row a scrape_keyword call inserts:
its keyword, task id, source file and content type are the call's, and a
mirroring failure (no key returned, an exception, or an unavailable store)
leaves both R2 columns empty. -/
def Qitem (env : ScrapeEnv) (kw : String) (tid sf : Option String)
    (ct : ContentType) (n : ScrapedItem) : Prop :=
  n.keyword = kw ∧ n.taskId = tid ∧ n.sourceFile = sf ∧ n.contentType = ct ∧
    ((uploadOk env n.url = none ∨ env.r2Available = false) →
      n.r2Key = none ∧ n.r2Url = none)

/-- The existing-URL set ex accounts for every session row of content type
ct. -/
def covers (ct : ContentType) (ex : List String) (db : DB) : Prop :=
  ∀ it ∈ db.session, it.contentType = ct → it.url ∈ ex

/-- The committed store only ever grows. -/
def DBExt (db db' : DB) : Prop := ∃ t, db'.committed = db.committed ++ t

/-- The (url, content type) keys of a plain committed store. -/
def storeKeys (store : List ScrapedItem) : List (String × ContentType) :=
  store.map (fun it => (it.url, it.contentType))

/-- Database-side run invariant for one task: the session is clean, the dedup
keys are distinct, and everything beyond the initial store was written by this
task for an allow-listed keyword. -/
def DbInv (spec : RunSpec) (store0 : List ScrapedItem) (db : DB) : Prop :=
  db.pending = [] ∧ (keys db).Nodup ∧
  ∃ t, db.committed = store0 ++ t ∧
    ∀ x ∈ t, x.taskId = some spec.tid ∧ x.keyword ∈ effAllowed spec

/-- The committed store left behind by one full run (an upload followed by an
arbitrary event trace). -/
def runStore (spec : RunSpec) (evs : List Event) (store : List ScrapedItem) :
    List ScrapedItem :=
  (runTrace spec (initState spec store) evs).db.committed

/-! ## Concrete scenario data used by witnesses and counterexamples -/

/-- An environment with no failures of any kind and no object store. -/
def envPlain : ScrapeEnv :=
  { r2Available := false, videoDownloadOk := fun _ => true,
    upload := fun _ => .noKey, flushFails := fun _ => false }

/-- An environment whose database flush fails for one specific image URL. -/
def envFailB2 : ScrapeEnv :=
  { r2Available := false, videoDownloadOk := fun _ => true,
    upload := fun _ => .noKey,
    flushFails := fun u => decide (u = "http://img/beta2.jpg") }

/-- An environment with an available object store whose uploads all return
(None, None). -/
def envUploadNoKey : ScrapeEnv :=
  { r2Available := true, videoDownloadOk := fun _ => true,
    upload := fun _ => .noKey, flushFails := fun _ => false }

/-- Two-keyword PDF-only run used to exercise cancellation. -/
def specC2 : RunSpec :=
  { tid := "t2", keywords := ["alpha", "beta"],
    scrapePdf := true, scrapeImage := false, scrapeYoutube := false,
    allowed := ["alpha", "beta"], keywordToFile := fun _ => some "f.csv",
    env := envPlain,
    ytOf := fun _ => .ok [], imgOf := fun _ => .ok [],
    pdfOf := fun k => .ok [⟨"http://pdf/" ++ k ++ ".pdf", "t", "d"⟩],
    resumableMode := false, newKeywordsCount := 2, skippedKeywordsCount := 0,
    allKeywordsScraped := false }

/-- Three-keyword image-only run whose second keyword hits a database error on
its second candidate. -/
def specC4 : RunSpec :=
  { tid := "t4", keywords := ["alpha", "beta", "gamma"],
    scrapePdf := false, scrapeImage := true, scrapeYoutube := false,
    allowed := ["alpha", "beta", "gamma"], keywordToFile := fun _ => some "f.csv",
    env := envFailB2,
    ytOf := fun _ => .ok [], pdfOf := fun _ => .ok [],
    imgOf := fun k =>
      if k = "beta" then
        .ok [⟨"http://img/beta1.jpg", "b1", "d"⟩, ⟨"http://img/beta2.jpg", "b2", "d"⟩]
      else .ok [⟨"http://img/" ++ k ++ ".jpg", k, "d"⟩],
    resumableMode := false, newKeywordsCount := 3, skippedKeywordsCount := 0,
    allKeywordsScraped := false }

/-- Two-keyword run in which the YouTube adapter call for the second keyword
raises (its search returns the empty list) while the image adapter still
returns a candidate. -/
def specC8 : RunSpec :=
  { tid := "t8", keywords := ["alpha", "beta"],
    scrapePdf := false, scrapeImage := true, scrapeYoutube := true,
    allowed := ["alpha", "beta"], keywordToFile := fun _ => some "f.csv",
    env := envPlain,
    ytOf := fun k =>
      if k = "beta" then .raised []
      else .ok [⟨"http://yt/" ++ k, k, "d"⟩],
    imgOf := fun k => .ok [⟨"http://img/" ++ k ++ ".jpg", k, "d"⟩],
    pdfOf := fun _ => .ok [],
    resumableMode := false, newKeywordsCount := 2, skippedKeywordsCount := 0,
    allKeywordsScraped := false }

end Pipeline

namespace Pipeline

/-! ## Session and store lemmas -/

theorem session_commitDB (db : DB) : (commitDB db).session = db.session := by
  simp [commitDB, DB.session]

theorem committed_commitDB (db : DB) : (commitDB db).committed = db.session := rfl

theorem session_addFlush (it : ScrapedItem) (db : DB) :
    (addFlush it db).session = db.session ++ [it] := by
  simp [addFlush, DB.session]

theorem committed_addFlush (it : ScrapedItem) (db : DB) :
    (addFlush it db).committed = db.committed := rfl

theorem setR2Last_addFlush (u : Option String) (k : String) (it : ScrapedItem) (db : DB) :
    setR2Last u k (addFlush it db) =
      addFlush { it with r2Url := u, r2Key := some k } db := by
  simp [setR2Last, addFlush, List.getLast?_concat, List.dropLast_concat]

theorem dbext_refl (db : DB) : DBExt db db := ⟨[], by simp⟩

theorem dbext_trans {a b c : DB} (h1 : DBExt a b) (h2 : DBExt b c) : DBExt a c := by
  obtain ⟨t1, h1⟩ := h1
  obtain ⟨t2, h2⟩ := h2
  exact ⟨t1 ++ t2, by simp [h2, h1]⟩

theorem dbext_commitDB (db : DB) : DBExt db (commitDB db) := ⟨db.pending, rfl⟩

theorem dbext_addFlush (it : ScrapedItem) (db : DB) : DBExt db (addFlush it db) :=
  ⟨[], by simp [addFlush]⟩

theorem dbext_setR2Last (u : Option String) (k : String) (db : DB) :
    DBExt db (setR2Last u k db) := by
  unfold setR2Last
  cases db.pending.getLast? with
  | none => exact dbext_refl db
  | some it => exact ⟨[], by simp⟩

theorem keys_session (db : DB) :
    keys db = db.session.map (fun it => (it.url, it.contentType)) := rfl

theorem keys_commitDB (db : DB) : keys (commitDB db) = keys db := by
  simp [keys, session_commitDB]

/-! ## Per-item mirroring step lemmas -/

theorem youtubeR2_session (env : ScrapeEnv) (u : String) (it : ScrapedItem) (db : DB) :
    (youtubeR2 env u (addFlush it db)).session = db.session ++ [ytFinalItem env u it] := by
  unfold youtubeR2 ytFinalItem
  by_cases ha : env.r2Available
  · by_cases hd : env.videoDownloadOk u
    · cases hu : env.upload u with
      | success r2u r2k =>
        simp [ha, hd, hu, setR2Last_addFlush, session_commitDB, session_addFlush]
      | noKey => simp [ha, hd, hu, session_addFlush]
      | raisesExc => simp [ha, hd, hu, session_commitDB, session_addFlush]
    · simp [ha, hd, session_commitDB, session_addFlush]
  · simp [ha, session_commitDB, session_addFlush]

theorem youtubeR2_dbext (env : ScrapeEnv) (u : String) (it : ScrapedItem) (db : DB) :
    DBExt db (youtubeR2 env u (addFlush it db)) := by
  unfold youtubeR2
  by_cases ha : env.r2Available
  · by_cases hd : env.videoDownloadOk u
    · cases hu : env.upload u with
      | success r2u r2k =>
        simp only [ha, hd, hu, if_true]
        exact dbext_trans (dbext_addFlush it db)
          (dbext_trans (dbext_setR2Last _ _ _) (dbext_commitDB _))
      | noKey =>
        simp only [ha, hd, hu, if_true]
        exact dbext_addFlush it db
      | raisesExc =>
        simp only [ha, hd, hu, if_true]
        exact dbext_trans (dbext_addFlush it db) (dbext_commitDB _)
    · simp only [ha, hd, if_true, if_false]
      exact dbext_trans (dbext_addFlush it db) (dbext_commitDB _)
  · simp only [ha, if_false]
    exact dbext_trans (dbext_addFlush it db) (dbext_commitDB _)

theorem uploadCommitR2_session (env : ScrapeEnv) (u : String) (it : ScrapedItem) (db : DB) :
    (uploadCommitR2 env u (addFlush it db)).session =
      db.session ++ [imgFinalItem env u it] := by
  unfold uploadCommitR2 imgFinalItem
  by_cases ha : env.r2Available
  · cases hu : env.upload u with
    | success r2u r2k =>
      simp [ha, hu, setR2Last_addFlush, session_commitDB, session_addFlush]
    | noKey => simp [ha, hu, session_commitDB, session_addFlush]
    | raisesExc => simp [ha, hu, session_commitDB, session_addFlush]
  · simp [ha, session_commitDB, session_addFlush]

theorem uploadCommitR2_dbext (env : ScrapeEnv) (u : String) (it : ScrapedItem) (db : DB) :
    DBExt db (uploadCommitR2 env u (addFlush it db)) := by
  unfold uploadCommitR2
  by_cases ha : env.r2Available
  · cases hu : env.upload u with
    | success r2u r2k =>
      simp only [ha, hu, if_true]
      exact dbext_trans (dbext_addFlush it db)
        (dbext_trans (dbext_setR2Last _ _ _) (dbext_commitDB _))
    | noKey =>
      simp only [ha, hu, if_true]
      exact dbext_trans (dbext_addFlush it db) (dbext_commitDB _)
    | raisesExc =>
      simp only [ha, hu, if_true]
      exact dbext_trans (dbext_addFlush it db) (dbext_commitDB _)
  · simp only [ha, if_false]
    exact dbext_trans (dbext_addFlush it db) (dbext_commitDB _)

theorem ytFinalItem_url (env : ScrapeEnv) (u : String) (it : ScrapedItem) :
    (ytFinalItem env u it).url = it.url := by
  unfold ytFinalItem
  by_cases ha : env.r2Available <;> by_cases hd : env.videoDownloadOk u <;>
    cases hu : env.upload u <;> simp [ha, hd, hu]

theorem imgFinalItem_url (env : ScrapeEnv) (u : String) (it : ScrapedItem) :
    (imgFinalItem env u it).url = it.url := by
  unfold imgFinalItem
  by_cases ha : env.r2Available <;> cases hu : env.upload u <;> simp [ha, hu]

theorem ytFinalItem_fields (env : ScrapeEnv) (u : String) (it : ScrapedItem) :
    (ytFinalItem env u it).keyword = it.keyword ∧
    (ytFinalItem env u it).taskId = it.taskId ∧
    (ytFinalItem env u it).sourceFile = it.sourceFile ∧
    (ytFinalItem env u it).contentType = it.contentType := by
  unfold ytFinalItem
  by_cases ha : env.r2Available <;> by_cases hd : env.videoDownloadOk u <;>
    cases hu : env.upload u <;> simp [ha, hd, hu]

theorem imgFinalItem_fields (env : ScrapeEnv) (u : String) (it : ScrapedItem) :
    (imgFinalItem env u it).keyword = it.keyword ∧
    (imgFinalItem env u it).taskId = it.taskId ∧
    (imgFinalItem env u it).sourceFile = it.sourceFile ∧
    (imgFinalItem env u it).contentType = it.contentType := by
  unfold imgFinalItem
  by_cases ha : env.r2Available <;> cases hu : env.upload u <;> simp [ha, hu]

theorem ytFinalItem_r2none (env : ScrapeEnv) (u : String) (it : ScrapedItem)
    (hfail : uploadOk env u = none ∨ env.r2Available = false)
    (h0 : it.r2Key = none ∧ it.r2Url = none) :
    (ytFinalItem env u it).r2Key = none ∧ (ytFinalItem env u it).r2Url = none := by
  unfold ytFinalItem
  by_cases ha : env.r2Available
  · by_cases hd : env.videoDownloadOk u
    · cases hu : env.upload u with
      | success r2u r2k =>
        rcases hfail with hfail | hfail
        · rw [uploadOk, hu] at hfail; exact absurd hfail (by simp)
        · exact absurd hfail (by simp [ha])
      | noKey => simpa [ha, hd, hu] using h0
      | raisesExc => simpa [ha, hd, hu] using h0
    · simpa [ha, hd] using h0
  · simpa [ha] using h0

theorem imgFinalItem_r2none (env : ScrapeEnv) (u : String) (it : ScrapedItem)
    (hfail : uploadOk env u = none ∨ env.r2Available = false)
    (h0 : it.r2Key = none ∧ it.r2Url = none) :
    (imgFinalItem env u it).r2Key = none ∧ (imgFinalItem env u it).r2Url = none := by
  unfold imgFinalItem
  by_cases ha : env.r2Available
  · cases hu : env.upload u with
    | success r2u r2k =>
      rcases hfail with hfail | hfail
      · rw [uploadOk, hu] at hfail; exact absurd hfail (by simp)
      · exact absurd hfail (by simp [ha])
    | noKey => simpa [ha, hu] using h0
    | raisesExc => simpa [ha, hu] using h0
  · simpa [ha] using h0

/-! ## Coverage and key lemmas -/

theorem key_not_mem (db : DB) (ct : ContentType) (ex : List String) (u : String)
    (hcov : covers ct ex db) (hu : u ∉ ex) : (u, ct) ∉ keys db := by
  intro hmem
  rw [keys] at hmem
  obtain ⟨it, hit, heq⟩ := List.mem_map.1 hmem
  have h1 : it.url = u := congrArg Prod.fst heq
  have h2 : it.contentType = ct := congrArg Prod.snd heq
  exact hu (h1 ▸ hcov it hit h2)

theorem covers_extend {ct : ContentType} {ex : List String} {db db' : DB}
    {new : List ScrapedItem} (hses : db'.session = db.session ++ new)
    (hcov : covers ct ex db)
    (hnew : ∀ n ∈ new, n.contentType = ct → n.url ∈ ex) : covers ct ex db' := by
  intro it hit hct
  rw [hses] at hit
  rcases List.mem_append.1 hit with h | h
  · exact hcov it h hct
  · exact hnew it h hct

theorem covers_mono {ct : ContentType} {ex ex' : List String} {db : DB}
    (h : covers ct ex db) (hsub : ∀ u ∈ ex, u ∈ ex') : covers ct ex' db := by
  intro it hit hct
  exact hsub _ (h it hit hct)

/-! ## Loop specifications -/

theorem youtubeLoop_spec (env : ScrapeEnv) (kw : String) (tid : Option String)
    (al : Option (List String)) (sf : Option String) :
    ∀ (items : List AdapterItem) (ex : List String) (ls : LoopState),
      covers .youtube ex ls.db → (keys ls.db).Nodup →
      (match youtubeLoop env kw tid al sf items ex ls with
       | .ok ls' =>
          (∃ new, ls'.db.session = ls.db.session ++ new ∧
            ∀ n ∈ new, Qitem env kw tid sf .youtube n) ∧
          (keys ls'.db).Nodup ∧ DBExt ls.db ls'.db ∧
          ls'.counts.image = ls.counts.image ∧ ls'.counts.pdf = ls.counts.pdf ∧
          (ls.counts.youtube < MAX_RESULTS_PER_KEYWORD →
             ls'.counts.youtube ≤ MAX_RESULTS_PER_KEYWORD)
       | .err d _ =>
          (∃ new, d.session = ls.db.session ++ new ∧
            ∀ n ∈ new, Qitem env kw tid sf .youtube n) ∧
          (keys d).Nodup ∧ DBExt ls.db d) := by
  intro items
  induction items with
  | nil =>
    intro ex ls hcov hN
    simp only [youtubeLoop]
    exact ⟨⟨[], by simp, by simp⟩, hN, dbext_refl _, trivial, trivial, fun h => le_of_lt h⟩
  | cons item rest ih =>
    intro ex ls hcov hN
    simp only [youtubeLoop]
    by_cases h1 : item.url ∈ ex
    · simp only [if_pos h1]; exact ih ex ls hcov hN
    · simp only [if_neg h1]
      by_cases h2 : item.url ∈ ls.keywordUrls
      · simp only [if_pos h2]; exact ih ex ls hcov hN
      · simp only [if_neg h2]
        by_cases h3 : allowedBlocks al kw = true
        · simp only [h3, if_true]; exact ih ex ls hcov hN
        · simp only [Bool.not_eq_true] at h3
          simp only [h3, Bool.false_eq_true, if_false]
          by_cases h4 : env.flushFails item.url = true
          · simp only [h4, if_true]
            exact ⟨⟨[], by simp, by simp⟩, hN, dbext_refl _⟩
          · simp only [Bool.not_eq_true] at h4
            simp only [h4, Bool.false_eq_true, if_false]
            -- the accepted-item branch
            set dbItem : ScrapedItem :=
              { keyword := kw, url := item.url, contentType := .youtube,
                title := item.title, description := item.description,
                contentHash := some (item.url.take 64),
                r2Url := none, r2Key := none, taskId := tid, sourceFile := sf }
              with hdbItem
            set fin := ytFinalItem env item.url dbItem with hfin
            have hses : (youtubeR2 env item.url (addFlush dbItem ls.db)).session =
                ls.db.session ++ [fin] := youtubeR2_session env item.url dbItem ls.db
            have hfinu : fin.url = item.url := by
              rw [hfin, ytFinalItem_url]
            have hfinf := ytFinalItem_fields env item.url dbItem
            have hQ : Qitem env kw tid sf .youtube fin := by
              refine ⟨?_, ?_, ?_, ?_, ?_⟩
              · rw [hfin, (ytFinalItem_fields env item.url dbItem).1]
              · rw [hfin, (ytFinalItem_fields env item.url dbItem).2.1]
              · rw [hfin, (ytFinalItem_fields env item.url dbItem).2.2.1]
              · rw [hfin, (ytFinalItem_fields env item.url dbItem).2.2.2]
              · intro hfail
                rw [hfin]
                exact ytFinalItem_r2none env item.url dbItem (hfinu ▸ hfail) ⟨rfl, rfl⟩
            have hfinct : fin.contentType = ContentType.youtube := by
              rw [hfin, (ytFinalItem_fields env item.url dbItem).2.2.2]
            have hkeys : keys (youtubeR2 env item.url (addFlush dbItem ls.db)) =
                keys ls.db ++ [(item.url, .youtube)] := by
              rw [keys, hses, List.map_append]
              congr 1
              simp [hfinu, hfinct]
            have hN2 : (keys (youtubeR2 env item.url (addFlush dbItem ls.db))).Nodup := by
              rw [hkeys]
              refine List.Nodup.append hN (List.nodup_singleton _) ?_
              intro p hp hq
              rw [List.mem_singleton] at hq
              subst hq
              exact key_not_mem ls.db .youtube ex item.url hcov h1 hp
            have hext : DBExt ls.db (youtubeR2 env item.url (addFlush dbItem ls.db)) :=
              youtubeR2_dbext env item.url dbItem ls.db
            by_cases h5 : MAX_RESULTS_PER_KEYWORD ≤ ls.counts.youtube + 1
            · simp only [h5, if_true]
              refine ⟨⟨[fin], by simpa using hses, ?_⟩, hN2, hext, by simp, by simp, ?_⟩
              · intro n hn
                rw [List.mem_singleton] at hn
                exact hn ▸ hQ
              · intro hlt
                simp only [MAX_RESULTS_PER_KEYWORD] at hlt ⊢
                omega
            · simp only [h5, if_false]
              have hcov2 : covers .youtube (item.url :: ex)
                  (youtubeR2 env item.url (addFlush dbItem ls.db)) := by
                refine covers_extend hses (covers_mono hcov ?_) ?_
                · intro u hu; exact List.mem_cons_of_mem _ hu
                · intro n hn hct
                  rw [List.mem_singleton] at hn
                  subst hn
                  rw [hfinu]
                  exact List.mem_cons_self _ _
              have H := ih (item.url :: ex)
                ⟨youtubeR2 env item.url (addFlush dbItem ls.db), item.url :: ls.keywordUrls,
                  { ls.counts with youtube := ls.counts.youtube + 1 }⟩ hcov2 hN2
              revert H
              cases hrec : youtubeLoop env kw tid al sf rest (item.url :: ex)
                ⟨youtubeR2 env item.url (addFlush dbItem ls.db), item.url :: ls.keywordUrls,
                  { ls.counts with youtube := ls.counts.youtube + 1 }⟩ with
              | ok ls' =>
                intro H
                obtain ⟨⟨new, hnew1, hnew2⟩, HN, HE, Hi, Hp, Hy⟩ := H
                refine ⟨⟨fin :: new, ?_, ?_⟩, HN, dbext_trans hext HE, by simpa using Hi,
                  by simpa using Hp, ?_⟩
                · rw [hnew1]; simp [hses]
                · intro n hn
                  rcases List.mem_cons.1 hn with h | h
                  · exact h ▸ hQ
                  · exact hnew2 n h
                · intro hlt
                  refine Hy ?_
                  simp only [MAX_RESULTS_PER_KEYWORD] at h5 ⊢
                  omega
              | err d e =>
                intro H
                obtain ⟨⟨new, hnew1, hnew2⟩, HN, HE⟩ := H
                refine ⟨⟨fin :: new, ?_, ?_⟩, HN, dbext_trans hext HE⟩
                · rw [hnew1]; simp [hses]
                · intro n hn
                  rcases List.mem_cons.1 hn with h | h
                  · exact h ▸ hQ
                  · exact hnew2 n h

theorem imageLoop_spec (env : ScrapeEnv) (kw : String) (tid : Option String)
    (al : Option (List String)) (sf : Option String) :
    ∀ (items : List AdapterItem) (ex : List String) (ls : LoopState),
      covers .image ex ls.db → (keys ls.db).Nodup →
      (match imageLoop env kw tid al sf items ex ls with
       | .ok ls' =>
          (∃ new, ls'.db.session = ls.db.session ++ new ∧
            ∀ n ∈ new, Qitem env kw tid sf .image n) ∧
          (keys ls'.db).Nodup ∧ DBExt ls.db ls'.db ∧
          ls'.counts.youtube = ls.counts.youtube ∧ ls'.counts.pdf = ls.counts.pdf ∧
          (ls.counts.image < MAX_RESULTS_PER_KEYWORD →
             ls'.counts.image ≤ MAX_RESULTS_PER_KEYWORD)
       | .err d _ =>
          (∃ new, d.session = ls.db.session ++ new ∧
            ∀ n ∈ new, Qitem env kw tid sf .image n) ∧
          (keys d).Nodup ∧ DBExt ls.db d) := by
  intro items
  induction items with
  | nil =>
    intro ex ls hcov hN
    simp only [imageLoop]
    exact ⟨⟨[], by simp, by simp⟩, hN, dbext_refl _, trivial, trivial, fun h => le_of_lt h⟩
  | cons item rest ih =>
    intro ex ls hcov hN
    simp only [imageLoop]
    by_cases h1 : item.url ∈ ex
    · simp only [if_pos h1]; exact ih ex ls hcov hN
    · simp only [if_neg h1]
      by_cases h2 : item.url ∈ ls.keywordUrls
      · simp only [if_pos h2]; exact ih ex ls hcov hN
      · simp only [if_neg h2]
        by_cases h3 : allowedBlocks al kw = true
        · simp only [h3, if_true]; exact ih ex ls hcov hN
        · simp only [Bool.not_eq_true] at h3
          simp only [h3, Bool.false_eq_true, if_false]
          by_cases h4 : env.flushFails item.url = true
          · simp only [h4, if_true]
            exact ⟨⟨[], by simp, by simp⟩, hN, dbext_refl _⟩
          · simp only [Bool.not_eq_true] at h4
            simp only [h4, Bool.false_eq_true, if_false]
            set dbItem : ScrapedItem :=
              { keyword := kw, url := item.url, contentType := .image,
                title := item.title, description := item.description,
                contentHash := none,
                r2Url := none, r2Key := none, taskId := tid, sourceFile := sf }
              with hdbItem
            set fin := imgFinalItem env item.url dbItem with hfin
            have hses : (uploadCommitR2 env item.url (addFlush dbItem ls.db)).session =
                ls.db.session ++ [fin] := uploadCommitR2_session env item.url dbItem ls.db
            have hfinu : fin.url = item.url := by
              rw [hfin, imgFinalItem_url]
            have hQ : Qitem env kw tid sf .image fin := by
              refine ⟨?_, ?_, ?_, ?_, ?_⟩
              · rw [hfin, (imgFinalItem_fields env item.url dbItem).1]
              · rw [hfin, (imgFinalItem_fields env item.url dbItem).2.1]
              · rw [hfin, (imgFinalItem_fields env item.url dbItem).2.2.1]
              · rw [hfin, (imgFinalItem_fields env item.url dbItem).2.2.2]
              · intro hfail
                rw [hfin]
                exact imgFinalItem_r2none env item.url dbItem (hfinu ▸ hfail) ⟨rfl, rfl⟩
            have hfinct : fin.contentType = ContentType.image := by
              rw [hfin, (imgFinalItem_fields env item.url dbItem).2.2.2]
            have hkeys : keys (uploadCommitR2 env item.url (addFlush dbItem ls.db)) =
                keys ls.db ++ [(item.url, .image)] := by
              rw [keys, hses, List.map_append]
              congr 1
              simp [hfinu, hfinct]
            have hN2 : (keys (uploadCommitR2 env item.url (addFlush dbItem ls.db))).Nodup := by
              rw [hkeys]
              refine List.Nodup.append hN (List.nodup_singleton _) ?_
              intro p hp hq
              rw [List.mem_singleton] at hq
              subst hq
              exact key_not_mem ls.db .image ex item.url hcov h1 hp
            have hext : DBExt ls.db (uploadCommitR2 env item.url (addFlush dbItem ls.db)) :=
              uploadCommitR2_dbext env item.url dbItem ls.db
            by_cases h5 : MAX_RESULTS_PER_KEYWORD ≤ ls.counts.image + 1
            · simp only [h5, if_true]
              refine ⟨⟨[fin], by simpa using hses, ?_⟩, hN2, hext, by simp, by simp, ?_⟩
              · intro n hn
                rw [List.mem_singleton] at hn
                exact hn ▸ hQ
              · intro hlt
                simp only [MAX_RESULTS_PER_KEYWORD] at hlt ⊢
                omega
            · simp only [h5, if_false]
              have hcov2 : covers .image (item.url :: ex)
                  (uploadCommitR2 env item.url (addFlush dbItem ls.db)) := by
                refine covers_extend hses (covers_mono hcov ?_) ?_
                · intro u hu; exact List.mem_cons_of_mem _ hu
                · intro n hn hct
                  rw [List.mem_singleton] at hn
                  subst hn
                  rw [hfinu]
                  exact List.mem_cons_self _ _
              have H := ih (item.url :: ex)
                ⟨uploadCommitR2 env item.url (addFlush dbItem ls.db), item.url :: ls.keywordUrls,
                  { ls.counts with image := ls.counts.image + 1 }⟩ hcov2 hN2
              revert H
              cases hrec : imageLoop env kw tid al sf rest (item.url :: ex)
                ⟨uploadCommitR2 env item.url (addFlush dbItem ls.db), item.url :: ls.keywordUrls,
                  { ls.counts with image := ls.counts.image + 1 }⟩ with
              | ok ls' =>
                intro H
                obtain ⟨⟨new, hnew1, hnew2⟩, HN, HE, Hy, Hp, Hi⟩ := H
                refine ⟨⟨fin :: new, ?_, ?_⟩, HN, dbext_trans hext HE, by simpa using Hy,
                  by simpa using Hp, ?_⟩
                · rw [hnew1]; simp [hses]
                · intro n hn
                  rcases List.mem_cons.1 hn with h | h
                  · exact h ▸ hQ
                  · exact hnew2 n h
                · intro hlt
                  refine Hi ?_
                  simp only [MAX_RESULTS_PER_KEYWORD] at h5 ⊢
                  omega
              | err d e =>
                intro H
                obtain ⟨⟨new, hnew1, hnew2⟩, HN, HE⟩ := H
                refine ⟨⟨fin :: new, ?_, ?_⟩, HN, dbext_trans hext HE⟩
                · rw [hnew1]; simp [hses]
                · intro n hn
                  rcases List.mem_cons.1 hn with h | h
                  · exact h ▸ hQ
                  · exact hnew2 n h

theorem pdfLoop_spec (env : ScrapeEnv) (kw : String) (tid : Option String)
    (al : Option (List String)) (sf : Option String) :
    ∀ (items : List AdapterItem) (ex : List String) (ls : LoopState),
      covers .pdf ex ls.db → (keys ls.db).Nodup →
      (∃ new, (pdfLoop env kw tid al sf items ex ls).db.session = ls.db.session ++ new ∧
        ∀ n ∈ new, Qitem env kw tid sf .pdf n) ∧
      (keys (pdfLoop env kw tid al sf items ex ls).db).Nodup ∧
      DBExt ls.db (pdfLoop env kw tid al sf items ex ls).db ∧
      (pdfLoop env kw tid al sf items ex ls).counts.youtube = ls.counts.youtube ∧
      (pdfLoop env kw tid al sf items ex ls).counts.image = ls.counts.image ∧
      (ls.counts.pdf < MAX_PDF_RESULTS_PER_KEYWORD →
        (pdfLoop env kw tid al sf items ex ls).counts.pdf ≤ MAX_PDF_RESULTS_PER_KEYWORD) := by
  intro items
  induction items with
  | nil =>
    intro ex ls hcov hN
    simp only [pdfLoop]
    exact ⟨⟨[], by simp, by simp⟩, hN, dbext_refl _, trivial, trivial, fun h => le_of_lt h⟩
  | cons item rest ih =>
    intro ex ls hcov hN
    simp only [pdfLoop]
    by_cases h0 : item.url = ""
    · simp only [if_pos h0]; exact ih ex ls hcov hN
    · simp only [if_neg h0]
      by_cases h1 : item.url ∈ ex
      · simp only [if_pos h1]; exact ih ex ls hcov hN
      · simp only [if_neg h1]
        by_cases h2 : item.url ∈ ls.keywordUrls
        · simp only [if_pos h2]; exact ih ex ls hcov hN
        · simp only [if_neg h2]
          by_cases h3 : allowedBlocks al kw = true
          · simp only [h3, if_true]; exact ih ex ls hcov hN
          · simp only [Bool.not_eq_true] at h3
            simp only [h3, Bool.false_eq_true, if_false]
            by_cases h4 : env.flushFails item.url = true
            · simp only [h4, if_true]; exact ih ex ls hcov hN
            · simp only [Bool.not_eq_true] at h4
              simp only [h4, Bool.false_eq_true, if_false]
              set dbItem : ScrapedItem :=
                { keyword := kw, url := item.url, contentType := .pdf,
                  title := item.title.take 500, description := item.description.take 1000,
                  contentHash := none,
                  r2Url := none, r2Key := none, taskId := tid, sourceFile := sf }
                with hdbItem
              set fin := imgFinalItem env item.url dbItem with hfin
              have hses : (uploadCommitR2 env item.url (addFlush dbItem ls.db)).session =
                  ls.db.session ++ [fin] := uploadCommitR2_session env item.url dbItem ls.db
              have hfinu : fin.url = item.url := by
                rw [hfin, imgFinalItem_url]
              have hQ : Qitem env kw tid sf .pdf fin := by
                refine ⟨?_, ?_, ?_, ?_, ?_⟩
                · rw [hfin, (imgFinalItem_fields env item.url dbItem).1]
                · rw [hfin, (imgFinalItem_fields env item.url dbItem).2.1]
                · rw [hfin, (imgFinalItem_fields env item.url dbItem).2.2.1]
                · rw [hfin, (imgFinalItem_fields env item.url dbItem).2.2.2]
                · intro hfail
                  rw [hfin]
                  exact imgFinalItem_r2none env item.url dbItem (hfinu ▸ hfail) ⟨rfl, rfl⟩
              have hfinct : fin.contentType = ContentType.pdf := by
                rw [hfin, (imgFinalItem_fields env item.url dbItem).2.2.2]
              have hkeys : keys (uploadCommitR2 env item.url (addFlush dbItem ls.db)) =
                  keys ls.db ++ [(item.url, .pdf)] := by
                rw [keys, hses, List.map_append]
                congr 1
                simp [hfinu, hfinct]
              have hN2 : (keys (uploadCommitR2 env item.url (addFlush dbItem ls.db))).Nodup := by
                rw [hkeys]
                refine List.Nodup.append hN (List.nodup_singleton _) ?_
                intro p hp hq
                rw [List.mem_singleton] at hq
                subst hq
                exact key_not_mem ls.db .pdf ex item.url hcov h1 hp
              have hext : DBExt ls.db (uploadCommitR2 env item.url (addFlush dbItem ls.db)) :=
                uploadCommitR2_dbext env item.url dbItem ls.db
              by_cases h5 : MAX_PDF_RESULTS_PER_KEYWORD ≤ ls.counts.pdf + 1
              · simp only [h5, if_true]
                refine ⟨⟨[fin], by simpa using hses, ?_⟩, hN2, hext, by simp, by simp, ?_⟩
                · intro n hn
                  rw [List.mem_singleton] at hn
                  exact hn ▸ hQ
                · intro hlt
                  simp only [MAX_PDF_RESULTS_PER_KEYWORD] at hlt ⊢
                  omega
              · simp only [h5, if_false]
                have hcov2 : covers .pdf (item.url :: ex)
                    (uploadCommitR2 env item.url (addFlush dbItem ls.db)) := by
                  refine covers_extend hses (covers_mono hcov ?_) ?_
                  · intro u hu; exact List.mem_cons_of_mem _ hu
                  · intro n hn hct
                    rw [List.mem_singleton] at hn
                    subst hn
                    rw [hfinu]
                    exact List.mem_cons_self _ _
                have H := ih (item.url :: ex)
                  ⟨uploadCommitR2 env item.url (addFlush dbItem ls.db), item.url :: ls.keywordUrls,
                    { ls.counts with pdf := ls.counts.pdf + 1 }⟩ hcov2 hN2
                obtain ⟨⟨new, hnew1, hnew2⟩, HN, HE, Hy, Hi, Hp⟩ := H
                refine ⟨⟨fin :: new, ?_, ?_⟩, HN, dbext_trans hext HE, by simpa using Hy,
                  by simpa using Hi, ?_⟩
                · rw [hnew1]; simp [hses]
                · intro n hn
                  rcases List.mem_cons.1 hn with h | h
                  · exact h ▸ hQ
                  · exact hnew2 n h
                · intro hlt
                  refine Hp ?_
                  simp only [MAX_PDF_RESULTS_PER_KEYWORD] at h5 ⊢
                  omega

/-! ## Stage lemmas: one content-type block of scrape_keyword, guarded by its
enable flag -/

theorem covers_typeUrls (ct : ContentType) (db : DB) :
    covers ct (typeUrls ct db.session) db := by
  intro it hit hct
  rw [typeUrls]
  exact List.mem_map.2 ⟨it, List.mem_filter.2 ⟨hit, by simp [hct]⟩, rfl⟩

theorem keys_rollback_nodup {d : DB} (h : (keys d).Nodup) :
    (keys (rollbackDB d)).Nodup := by
  have heq : keys d = keys (rollbackDB d) ++
      d.pending.map (fun it => (it.url, it.contentType)) := by
    simp [keys, DB.session, rollbackDB]
  rw [heq] at h
  exact h.of_append_left

theorem ytStage_spec (env : ScrapeEnv) (kw : String) (tid : Option String)
    (al : Option (List String)) (sf : Option String) (syt : Bool)
    (yt : List AdapterItem) (ex : List String) (ls : LoopState)
    (hcov : syt = true → covers .youtube ex ls.db) (hN : (keys ls.db).Nodup) :
    (match (if syt then youtubeLoop env kw tid al sf yt ex ls else .ok ls) with
     | .ok ls' =>
        (∃ new, ls'.db.session = ls.db.session ++ new ∧
          ∀ n ∈ new, Qitem env kw tid sf .youtube n) ∧
        (keys ls'.db).Nodup ∧ DBExt ls.db ls'.db ∧
        ls'.counts.image = ls.counts.image ∧ ls'.counts.pdf = ls.counts.pdf ∧
        (ls.counts.youtube < MAX_RESULTS_PER_KEYWORD →
           ls'.counts.youtube ≤ MAX_RESULTS_PER_KEYWORD)
     | .err d _ =>
        (∃ new, d.session = ls.db.session ++ new ∧
          ∀ n ∈ new, Qitem env kw tid sf .youtube n) ∧
        (keys d).Nodup ∧ DBExt ls.db d) := by
  cases syt with
  | false =>
    exact ⟨⟨[], by simp, by simp⟩, hN, dbext_refl _, rfl, rfl, fun h => le_of_lt h⟩
  | true =>
    exact youtubeLoop_spec env kw tid al sf yt ex ls (hcov rfl) hN

theorem imgStage_spec (env : ScrapeEnv) (kw : String) (tid : Option String)
    (al : Option (List String)) (sf : Option String) (simg : Bool)
    (img : List AdapterItem) (ex : List String) (ls : LoopState)
    (hcov : simg = true → covers .image ex ls.db) (hN : (keys ls.db).Nodup) :
    (match (if simg then imageLoop env kw tid al sf img ex ls else .ok ls) with
     | .ok ls' =>
        (∃ new, ls'.db.session = ls.db.session ++ new ∧
          ∀ n ∈ new, Qitem env kw tid sf .image n) ∧
        (keys ls'.db).Nodup ∧ DBExt ls.db ls'.db ∧
        ls'.counts.youtube = ls.counts.youtube ∧ ls'.counts.pdf = ls.counts.pdf ∧
        (ls.counts.image < MAX_RESULTS_PER_KEYWORD →
           ls'.counts.image ≤ MAX_RESULTS_PER_KEYWORD)
     | .err d _ =>
        (∃ new, d.session = ls.db.session ++ new ∧
          ∀ n ∈ new, Qitem env kw tid sf .image n) ∧
        (keys d).Nodup ∧ DBExt ls.db d) := by
  cases simg with
  | false =>
    exact ⟨⟨[], by simp, by simp⟩, hN, dbext_refl _, rfl, rfl, fun h => le_of_lt h⟩
  | true =>
    exact imageLoop_spec env kw tid al sf img ex ls (hcov rfl) hN

theorem pdfStage_spec (env : ScrapeEnv) (kw : String) (tid : Option String)
    (al : Option (List String)) (sf : Option String) (spdf : Bool)
    (pdf : List AdapterItem) (ex : List String) (ls : LoopState)
    (hcov : spdf = true → covers .pdf ex ls.db) (hN : (keys ls.db).Nodup) :
    (∃ new, (if spdf then pdfLoop env kw tid al sf pdf ex ls else ls).db.session =
        ls.db.session ++ new ∧ ∀ n ∈ new, Qitem env kw tid sf .pdf n) ∧
    (keys (if spdf then pdfLoop env kw tid al sf pdf ex ls else ls).db).Nodup ∧
    DBExt ls.db (if spdf then pdfLoop env kw tid al sf pdf ex ls else ls).db ∧
    (if spdf then pdfLoop env kw tid al sf pdf ex ls else ls).counts.youtube =
      ls.counts.youtube ∧
    (if spdf then pdfLoop env kw tid al sf pdf ex ls else ls).counts.image =
      ls.counts.image ∧
    (ls.counts.pdf < MAX_PDF_RESULTS_PER_KEYWORD →
      (if spdf then pdfLoop env kw tid al sf pdf ex ls else ls).counts.pdf ≤
        MAX_PDF_RESULTS_PER_KEYWORD) := by
  cases spdf with
  | false =>
    exact ⟨⟨[], by simp, by simp⟩, hN, dbext_refl _, rfl, rfl, fun h => le_of_lt h⟩
  | true =>
    exact pdfLoop_spec env kw tid al sf pdf ex ls (hcov rfl) hN

theorem err_committed_items {db d : DB} {new t : List ScrapedItem}
    (hp : db.pending = []) (hses : d.session = db.session ++ new)
    (hcom : d.committed = db.committed ++ t) : ∀ x ∈ t, x ∈ new := by
  have h1 : db.session = db.committed := by simp [DB.session, hp]
  have h2 : d.session = d.committed ++ d.pending := rfl
  rw [h1] at hses
  rw [h2, hcom] at hses
  have h3a : db.committed ++ (t ++ d.pending) = db.committed ++ new := by
    simpa [List.append_assoc] using hses
  have h3 : t ++ d.pending = new := List.append_cancel_left h3a
  intro x hx
  rw [← h3]
  exact List.mem_append_left _ hx

/-- The master soundness theorem for one scrape_keyword call, started on a
session with no pending rows: the dedup invariant on (url, content type) keys
is preserved, the call leaves no pending rows behind (it ends in a commit or a
rollback), the committed store only grows, every newly committed row carries
the call's keyword, task id and source file and has empty R2 columns whenever
its mirroring failed, and the returned counters respect the per-type caps. -/
theorem scrape_keyword_sound (env : ScrapeEnv) (kw : String)
    (spdf simg syt : Bool) (tid : Option String) (al : Option (List String))
    (sf : Option String) (yt img pdf : List AdapterItem) (db : DB)
    (hp : db.pending = []) (hN : (keys db).Nodup) :
    (keys (scrape_keyword env kw spdf simg syt tid al sf yt img pdf db).1).Nodup ∧
    (scrape_keyword env kw spdf simg syt tid al sf yt img pdf db).1.pending = [] ∧
    (∃ t, (scrape_keyword env kw spdf simg syt tid al sf yt img pdf db).1.committed =
        db.committed ++ t ∧
      ∀ n ∈ t, n.keyword = kw ∧ n.taskId = tid ∧ n.sourceFile = sf ∧
        ((uploadOk env n.url = none ∨ env.r2Available = false) →
          n.r2Key = none ∧ n.r2Url = none)) ∧
    (∀ c, (scrape_keyword env kw spdf simg syt tid al sf yt img pdf db).2 = .ok c →
      c.youtube ≤ MAX_RESULTS_PER_KEYWORD ∧ c.image ≤ MAX_RESULTS_PER_KEYWORD ∧
      c.pdf ≤ MAX_PDF_RESULTS_PER_KEYWORD) := by
  by_cases hb : allowedBlocks al kw = true
  · simp only [scrape_keyword, hb, if_true]
    refine ⟨hN, hp, ⟨[], by simp, by simp⟩, ?_⟩
    intro c hc
    simp only [Except.ok.injEq] at hc
    subst hc
    exact ⟨by simp [MAX_RESULTS_PER_KEYWORD], by simp [MAX_RESULTS_PER_KEYWORD],
      by simp [MAX_PDF_RESULTS_PER_KEYWORD]⟩
  · simp only [Bool.not_eq_true] at hb
    have Hyt := ytStage_spec env kw tid al sf syt yt
      (if syt then typeUrls .youtube db.session else []) ⟨db, [], ⟨0, 0, 0⟩⟩
      (by intro h; rw [if_pos h]; exact covers_typeUrls .youtube db) hN
    revert Hyt
    cases hr1 : (if syt then youtubeLoop env kw tid al sf yt
        (if syt then typeUrls .youtube db.session else [])
        (⟨db, [], ⟨0, 0, 0⟩⟩ : LoopState) else .ok ⟨db, [], ⟨0, 0, 0⟩⟩) with
    | err d e =>
      intro Hyt
      obtain ⟨⟨new1, hnew1, hQ1⟩, HN1, ⟨t1, ht1⟩⟩ := Hyt
      have hres : scrape_keyword env kw spdf simg syt tid al sf yt img pdf db =
          (rollbackDB d, .error e) := by
        simp only [scrape_keyword, hb, Bool.false_eq_true, if_false, hr1]
      rw [hres]
      refine ⟨keys_rollback_nodup HN1, rfl, ⟨t1, ht1, ?_⟩, ?_⟩
      · intro n hn
        have := err_committed_items hp hnew1 ht1 n hn
        obtain ⟨q1, q2, q3, _, q5⟩ := hQ1 n this
        exact ⟨q1, q2, q3, q5⟩
      · intro c hc
        exact absurd hc (by simp)
    | ok ls1 =>
      intro Hyt
      obtain ⟨⟨new1, hnew1, hQ1⟩, HN1, HE1, Hi1, Hp1, Hy1⟩ := Hyt
      have Himg := imgStage_spec env kw tid al sf simg img
        (if simg then typeUrls .image db.session else []) ls1
        (by
          intro h
          rw [if_pos h]
          refine covers_extend hnew1 (covers_typeUrls .image db) ?_
          intro n hn hct
          obtain ⟨_, _, _, q4, _⟩ := hQ1 n hn
          rw [q4] at hct
          exact absurd hct (by simp)) HN1
      revert Himg
      cases hr2 : (if simg then imageLoop env kw tid al sf img
          (if simg then typeUrls .image db.session else []) ls1 else .ok ls1) with
      | err d e =>
        intro Himg
        obtain ⟨⟨new2, hnew2, hQ2⟩, HN2, HE2⟩ := Himg
        have hres : scrape_keyword env kw spdf simg syt tid al sf yt img pdf db =
            (rollbackDB d, .error e) := by
          simp only [scrape_keyword, hb, Bool.false_eq_true, if_false, hr1, hr2]
        rw [hres]
        obtain ⟨ta, hta⟩ := HE1
        obtain ⟨tb, htb⟩ := HE2
        have hses2 : d.session = db.session ++ (new1 ++ new2) := by
          rw [hnew2, hnew1, List.append_assoc]
        have hcom2 : d.committed = db.committed ++ (ta ++ tb) := by
          rw [htb, hta, List.append_assoc]
        refine ⟨keys_rollback_nodup HN2, rfl, ⟨ta ++ tb, hcom2, ?_⟩, ?_⟩
        · intro n hn
          have hmem := err_committed_items hp hses2 hcom2 n hn
          rcases List.mem_append.1 hmem with h | h
          · obtain ⟨q1, q2, q3, _, q5⟩ := hQ1 n h
            exact ⟨q1, q2, q3, q5⟩
          · obtain ⟨q1, q2, q3, _, q5⟩ := hQ2 n h
            exact ⟨q1, q2, q3, q5⟩
        · intro c hc
          exact absurd hc (by simp)
      | ok ls2 =>
        intro Himg
        obtain ⟨⟨new2, hnew2, hQ2⟩, HN2, HE2, Hy2, Hp2, Hi2⟩ := Himg
        have hres : scrape_keyword env kw spdf simg syt tid al sf yt img pdf db =
            (commitDB (if spdf then pdfLoop env kw tid al sf pdf
                (if spdf then typeUrls .pdf db.session else []) ls2 else ls2).db,
             .ok (if spdf then pdfLoop env kw tid al sf pdf
                (if spdf then typeUrls .pdf db.session else []) ls2 else ls2).counts) := by
          simp only [scrape_keyword, hb, Bool.false_eq_true, if_false, hr1, hr2]
        rw [hres]
        have Hpdf := pdfStage_spec env kw tid al sf spdf pdf
          (if spdf then typeUrls .pdf db.session else []) ls2
          (by
            intro h
            rw [if_pos h]
            have hses2 : ls2.db.session = db.session ++ (new1 ++ new2) := by
              rw [hnew2, hnew1, List.append_assoc]
            refine covers_extend hses2 (covers_typeUrls .pdf db) ?_
            intro n hn hct
            rcases List.mem_append.1 hn with hn | hn
            · obtain ⟨_, _, _, q4, _⟩ := hQ1 n hn
              rw [q4] at hct
              exact absurd hct (by simp)
            · obtain ⟨_, _, _, q4, _⟩ := hQ2 n hn
              rw [q4] at hct
              exact absurd hct (by simp)) HN2
        obtain ⟨⟨new3, hnew3, hQ3⟩, HN3, HE3, Hy3, Hi3, Hp3⟩ := Hpdf
        have hsesAll : (if spdf then pdfLoop env kw tid al sf pdf
            (if spdf then typeUrls .pdf db.session else []) ls2 else ls2).db.session =
            db.session ++ (new1 ++ new2 ++ new3) := by
          rw [hnew3, hnew2, hnew1]
          simp [List.append_assoc]
        refine ⟨?_, rfl, ⟨new1 ++ new2 ++ new3, ?_, ?_⟩, ?_⟩
        · rw [keys_commitDB]
          exact HN3
        · rw [committed_commitDB, hsesAll]
          have hsc : db.session = db.committed := by simp [DB.session, hp]
          rw [hsc]
        · intro n hn
          rcases List.mem_append.1 hn with hn | hn
          · rcases List.mem_append.1 hn with hn | hn
            · obtain ⟨q1, q2, q3, _, q5⟩ := hQ1 n hn
              exact ⟨q1, q2, q3, q5⟩
            · obtain ⟨q1, q2, q3, _, q5⟩ := hQ2 n hn
              exact ⟨q1, q2, q3, q5⟩
          · obtain ⟨q1, q2, q3, _, q5⟩ := hQ3 n hn
            exact ⟨q1, q2, q3, q5⟩
        · intro c hc
          simp only [Except.ok.injEq] at hc
          subst hc
          refine ⟨?_, ?_, ?_⟩
          · rw [Hy3, Hy2]
            exact Hy1 (by simp [MAX_RESULTS_PER_KEYWORD])
          · rw [Hi3]
            refine Hi2 ?_
            rw [Hi1]
            simp [MAX_RESULTS_PER_KEYWORD]
          · refine Hp3 ?_
            rw [Hp2, Hp1]
            simp [MAX_PDF_RESULTS_PER_KEYWORD]

/-- The per-call keyword guard (manager.py lines 36-38): a keyword outside the
allow-list is rejected before any database access, returning zero counts and
leaving the session untouched. -/
theorem scrape_keyword_blocked (env : ScrapeEnv) (kw : String)
    (spdf simg syt : Bool) (tid : Option String) (l : List String)
    (sf : Option String) (yt img pdf : List AdapterItem) (db : DB)
    (h : kw ∉ l) :
    scrape_keyword env kw spdf simg syt tid (some l) sf yt img pdf db =
      (db, .ok ⟨0, 0, 0⟩) := by
  have hb : allowedBlocks (some l) kw = true := by simp [allowedBlocks, h]
  simp [scrape_keyword, hb]

/-! ## Absence of task-level failure when the database does not fail -/

theorem youtubeLoop_ok (env : ScrapeEnv) (kw : String) (tid : Option String)
    (al : Option (List String)) (sf : Option String)
    (hf : ∀ u, env.flushFails u = false) :
    ∀ (items : List AdapterItem) (ex : List String) (ls : LoopState),
      ∃ ls', youtubeLoop env kw tid al sf items ex ls = .ok ls' := by
  intro items
  induction items with
  | nil => intro ex ls; exact ⟨ls, rfl⟩
  | cons item rest ih =>
    intro ex ls
    simp only [youtubeLoop]
    by_cases h1 : item.url ∈ ex
    · simp only [if_pos h1]; exact ih ex ls
    · simp only [if_neg h1]
      by_cases h2 : item.url ∈ ls.keywordUrls
      · simp only [if_pos h2]; exact ih ex ls
      · simp only [if_neg h2]
        by_cases h3 : allowedBlocks al kw = true
        · simp only [h3, if_true]; exact ih ex ls
        · simp only [Bool.not_eq_true] at h3
          simp only [h3, Bool.false_eq_true, if_false, hf item.url]
          by_cases h5 : MAX_RESULTS_PER_KEYWORD ≤ ls.counts.youtube + 1
          · simp only [h5, if_true]
            exact ⟨_, rfl⟩
          · simp only [h5, if_false]
            exact ih _ _

theorem imageLoop_ok (env : ScrapeEnv) (kw : String) (tid : Option String)
    (al : Option (List String)) (sf : Option String)
    (hf : ∀ u, env.flushFails u = false) :
    ∀ (items : List AdapterItem) (ex : List String) (ls : LoopState),
      ∃ ls', imageLoop env kw tid al sf items ex ls = .ok ls' := by
  intro items
  induction items with
  | nil => intro ex ls; exact ⟨ls, rfl⟩
  | cons item rest ih =>
    intro ex ls
    simp only [imageLoop]
    by_cases h1 : item.url ∈ ex
    · simp only [if_pos h1]; exact ih ex ls
    · simp only [if_neg h1]
      by_cases h2 : item.url ∈ ls.keywordUrls
      · simp only [if_pos h2]; exact ih ex ls
      · simp only [if_neg h2]
        by_cases h3 : allowedBlocks al kw = true
        · simp only [h3, if_true]; exact ih ex ls
        · simp only [Bool.not_eq_true] at h3
          simp only [h3, Bool.false_eq_true, if_false, hf item.url]
          by_cases h5 : MAX_RESULTS_PER_KEYWORD ≤ ls.counts.image + 1
          · simp only [h5, if_true]
            exact ⟨_, rfl⟩
          · simp only [h5, if_false]
            exact ih _ _

/-- When no database flush fails, scrape_keyword never raises: it always
returns counters. -/
theorem scrape_keyword_ok (env : ScrapeEnv) (kw : String)
    (spdf simg syt : Bool) (tid : Option String) (al : Option (List String))
    (sf : Option String) (yt img pdf : List AdapterItem) (db : DB)
    (hf : ∀ u, env.flushFails u = false) :
    ∃ c, (scrape_keyword env kw spdf simg syt tid al sf yt img pdf db).2 = .ok c := by
  by_cases hb : allowedBlocks al kw = true
  · exact ⟨⟨0, 0, 0⟩, by simp [scrape_keyword, hb]⟩
  · simp only [Bool.not_eq_true] at hb
    have h1 : ∃ ls1, (if syt then youtubeLoop env kw tid al sf yt
        (if syt then typeUrls .youtube db.session else [])
        (⟨db, [], ⟨0, 0, 0⟩⟩ : LoopState) else .ok ⟨db, [], ⟨0, 0, 0⟩⟩) = .ok ls1 := by
      cases syt with
      | false => exact ⟨_, rfl⟩
      | true => exact youtubeLoop_ok env kw tid al sf hf yt _ _
    obtain ⟨ls1, hr1⟩ := h1
    have h2 : ∃ ls2, (if simg then imageLoop env kw tid al sf img
        (if simg then typeUrls .image db.session else []) ls1 else .ok ls1) = .ok ls2 := by
      cases simg with
      | false => exact ⟨_, rfl⟩
      | true => exact imageLoop_ok env kw tid al sf hf img _ _
    obtain ⟨ls2, hr2⟩ := h2
    exact ⟨(if spdf then pdfLoop env kw tid al sf pdf
        (if spdf then typeUrls .pdf db.session else []) ls2 else ls2).counts, by
      simp only [scrape_keyword, hb, Bool.false_eq_true, if_false, hr1, hr2]⟩

/-! ## Registry map lemmas -/

theorem lookupTP_setStatusTP (t st : String) :
    ∀ m, lookupTP t (setStatusTP t st m) =
      (lookupTP t m).map (fun p => { p with status := st }) := by
  intro m
  induction m with
  | nil => rfl
  | cons kp rest ih =>
    obtain ⟨k, p⟩ := kp
    by_cases hk : k = t
    · subst hk
      simp [setStatusTP, lookupTP]
    · simp [setStatusTP, lookupTP, hk, ih]

theorem lookupTP_setStatusTP_ne (t t' st : String) (hne : t' ≠ t) :
    ∀ m, lookupTP t (setStatusTP t' st m) = lookupTP t m := by
  intro m
  induction m with
  | nil => rfl
  | cons kp rest ih =>
    obtain ⟨k, p⟩ := kp
    by_cases hk : k = t'
    · subst hk
      simp [setStatusTP, lookupTP, hne, ih]
    · by_cases hk2 : k = t
      · subst hk2
        simp [setStatusTP, lookupTP, hk]
      · simp [setStatusTP, lookupTP, hk, hk2, ih]

theorem lookupTP_upsertTP (t : String) (p : TaskProgress) :
    ∀ m, lookupTP t (upsertTP t p m) = some p := by
  intro m
  induction m with
  | nil => simp [upsertTP, lookupTP]
  | cons kp rest ih =>
    obtain ⟨k, q⟩ := kp
    by_cases hk : k = t
    · subst hk
      simp [upsertTP, lookupTP]
    · simp only [upsertTP]
      rw [if_neg hk]
      simp only [lookupTP]
      rw [if_neg hk]
      exact ih

/-! ## Database invariant preservation along traces -/

theorem cancelReq_db (t : String) (s : SystemState) : (cancelReq t s).db = s.db := by
  unfold cancelReq
  cases lookupTP t s.progress with
  | none => rfl
  | some p =>
    by_cases hst : p.status = "completed" ∨ p.status = "cancelled" ∨ p.status = "error"
    · simp [hst]
    · simp [hst]

theorem orchStep_dbinv (spec : RunSpec) (store0 : List ScrapedItem) (s : SystemState)
    (h : DbInv spec store0 s.db) : DbInv spec store0 (orchStep spec s).db := by
  by_cases hdone : s.jobDone = true
  · have hdb : (orchStep spec s).db = s.db := by simp [orchStep, hdone]
    rw [hdb]; exact h
  · simp only [Bool.not_eq_true] at hdone
    by_cases hlt : s.jobIdx < spec.keywords.length
    · by_cases hc : spec.tid ∈ s.cancelled
      · have hdb : (orchStep spec s).db = s.db := by
          simp [orchStep, hdone, dif_pos hlt, hc]
        rw [hdb]; exact h
      · by_cases hkw0 : pyStrip spec.keywords[s.jobIdx] = ""
        · have hdb : (orchStep spec s).db = s.db := by
            simp [orchStep, hdone, dif_pos hlt, hc, hkw0]
          rw [hdb]; exact h
        · by_cases hkw1 : pyStrip spec.keywords[s.jobIdx] ∈ effAllowed spec
          · obtain ⟨hp, hN, t0, ht0, hQ0⟩ := h
            have HS := scrape_keyword_sound spec.env
              (pyStrip spec.keywords[s.jobIdx])
              spec.scrapePdf spec.scrapeImage spec.scrapeYoutube (some spec.tid)
              (some (effAllowed spec))
              (some ((spec.keywordToFile
                (pyStrip spec.keywords[s.jobIdx])).getD "unknown"))
              (youtubeSearch (spec.ytOf (pyStrip spec.keywords[s.jobIdx])))
              (imageSearch (spec.imgOf (pyStrip spec.keywords[s.jobIdx])))
              (pdfSearch MAX_PDF_RESULTS_PER_KEYWORD
                (spec.pdfOf (pyStrip spec.keywords[s.jobIdx])))
              s.db hp hN
            obtain ⟨HSn, HSp, ⟨t1, ht1, hQ1⟩, _⟩ := HS
            have hdb : (orchStep spec s).db = (scrape_keyword spec.env
                (pyStrip spec.keywords[s.jobIdx])
                spec.scrapePdf spec.scrapeImage spec.scrapeYoutube (some spec.tid)
                (some (effAllowed spec))
                (some ((spec.keywordToFile
                  (pyStrip spec.keywords[s.jobIdx])).getD "unknown"))
                (youtubeSearch (spec.ytOf (pyStrip spec.keywords[s.jobIdx])))
                (imageSearch (spec.imgOf (pyStrip spec.keywords[s.jobIdx])))
                (pdfSearch MAX_PDF_RESULTS_PER_KEYWORD
                  (spec.pdfOf (pyStrip spec.keywords[s.jobIdx])))
                s.db).1 := by
              cases hr : (scrape_keyword spec.env
                  (pyStrip spec.keywords[s.jobIdx])
                  spec.scrapePdf spec.scrapeImage spec.scrapeYoutube (some spec.tid)
                  (some (effAllowed spec))
                  (some ((spec.keywordToFile
                    (pyStrip spec.keywords[s.jobIdx])).getD "unknown"))
                  (youtubeSearch (spec.ytOf (pyStrip spec.keywords[s.jobIdx])))
                  (imageSearch (spec.imgOf (pyStrip spec.keywords[s.jobIdx])))
                  (pdfSearch MAX_PDF_RESULTS_PER_KEYWORD
                    (spec.pdfOf (pyStrip spec.keywords[s.jobIdx])))
                  s.db).2 with
              | ok c => simp [orchStep, hdone, dif_pos hlt, hc, hkw0, hkw1, hr]
              | error e => simp [orchStep, hdone, dif_pos hlt, hc, hkw0, hkw1, hr]
            rw [hdb]
            refine ⟨HSp, HSn, t0 ++ t1, ?_, ?_⟩
            · rw [ht1, ht0, List.append_assoc]
            · intro x hx
              rcases List.mem_append.1 hx with hx | hx
              · exact hQ0 x hx
              · obtain ⟨q1, q2, _, _⟩ := hQ1 x hx
                exact ⟨q2, q1 ▸ hkw1⟩
          · have hdb : (orchStep spec s).db = s.db := by
              simp [orchStep, hdone, dif_pos hlt, hc, hkw0, hkw1]
            rw [hdb]; exact h
    · have hdb : (orchStep spec s).db = s.db := by
        simp [orchStep, hdone, hlt]
      rw [hdb]; exact h

theorem stepEv_dbinv (spec : RunSpec) (store0 : List ScrapedItem) (s : SystemState)
    (e : Event) (h : DbInv spec store0 s.db) :
    DbInv spec store0 (stepEv spec s e).db := by
  cases e with
  | orch => exact orchStep_dbinv spec store0 s h
  | cancel t =>
    show DbInv spec store0 (cancelReq t s).db
    rw [cancelReq_db]
    exact h

theorem runTrace_dbinv (spec : RunSpec) (store0 : List ScrapedItem) :
    ∀ (evs : List Event) (s : SystemState), DbInv spec store0 s.db →
      DbInv spec store0 (runTrace spec s evs).db := by
  intro evs
  induction evs with
  | nil => intro s h; exact h
  | cons e evs ih =>
    intro s h
    exact ih _ (stepEv_dbinv spec store0 s e h)

theorem initState_dbinv (spec : RunSpec) (store : List ScrapedItem)
    (hN : (storeKeys store).Nodup) : DbInv spec store (initState spec store).db := by
  refine ⟨rfl, ?_, [], by simp [initState], by simp⟩
  simpa [keys, DB.session, storeKeys, initState] using hN

/-! ## Termination in the completed status -/

/-- Once the background coroutine has returned, a further orchestrator step
changes nothing. -/
theorem orchStep_done (spec : RunSpec) (s : SystemState) (h : s.jobDone = true) :
    orchStep spec s = s := by
  simp [orchStep, h]

/-- With no database failures and no cancellation request, the background job
runs every remaining keyword and ends by publishing the completed status. -/
theorem run_completes (spec : RunSpec) (hf : ∀ u, spec.env.flushFails u = false) :
    ∀ (k : Nat) (s : SystemState), s.jobDone = false → s.cancelled = [] →
      s.jobIdx + k = spec.keywords.length →
      (lookupTP spec.tid s.progress).isSome = true →
      (lookupTP spec.tid (orchN spec (k + 1) s).progress).map (fun p => p.status) =
        some "completed" ∧ (orchN spec (k + 1) s).jobDone = true := by
  intro k
  induction k with
  | zero =>
    intro s hdone hcanc hidx hsome
    have hlt : ¬ s.jobIdx < spec.keywords.length := by omega
    have hstep : orchStep spec s =
        { s with progress := setStatusTP spec.tid "completed" s.progress,
                 jobDone := true } := by
      simp [orchStep, hdone, hlt]
    show (lookupTP spec.tid (orchStep spec s).progress).map (fun p => p.status) =
        some "completed" ∧ (orchStep spec s).jobDone = true
    rw [hstep]
    refine ⟨?_, rfl⟩
    rw [lookupTP_setStatusTP]
    obtain ⟨p, hp⟩ := Option.isSome_iff_exists.1 hsome
    rw [hp]
    rfl
  | succ k ih =>
    intro s hdone hcanc hidx hsome
    have hlt : s.jobIdx < spec.keywords.length := by omega
    have hnc : spec.tid ∉ s.cancelled := by simp [hcanc]
    have hstep : orchN spec (k + 1 + 1) s = orchN spec (k + 1) (orchStep spec s) := rfl
    rw [hstep]
    by_cases hkw0 : pyStrip spec.keywords[s.jobIdx] = ""
    · have heq : orchStep spec s = { s with jobIdx := s.jobIdx + 1 } := by
        simp [orchStep, hdone, dif_pos hlt, hnc, hkw0]
      rw [heq]
      exact ih _ hdone hcanc (by simpa using by omega) hsome
    · by_cases hkw1 : pyStrip spec.keywords[s.jobIdx] ∈ effAllowed spec
      · obtain ⟨c, hc⟩ := scrape_keyword_ok spec.env
          (pyStrip spec.keywords[s.jobIdx])
          spec.scrapePdf spec.scrapeImage spec.scrapeYoutube (some spec.tid)
          (some (effAllowed spec))
          (some ((spec.keywordToFile (pyStrip spec.keywords[s.jobIdx])).getD "unknown"))
          (youtubeSearch (spec.ytOf (pyStrip spec.keywords[s.jobIdx])))
          (imageSearch (spec.imgOf (pyStrip spec.keywords[s.jobIdx])))
          (pdfSearch MAX_PDF_RESULTS_PER_KEYWORD
            (spec.pdfOf (pyStrip spec.keywords[s.jobIdx])))
          s.db hf
        have heq : orchStep spec s =
            { s with
              progress := upsertTP spec.tid
                { (lookupTP spec.tid s.progress).getD emptyTP with
                  keyword := pyStrip spec.keywords[s.jobIdx],
                  totalKeywords := spec.keywords.length,
                  currentKeywordIndex := s.jobIdx + 1, status := "processing",
                  pdfCount := ((lookupTP spec.tid s.progress).getD emptyTP).pdfCount + c.pdf,
                  imageCount :=
                    ((lookupTP spec.tid s.progress).getD emptyTP).imageCount + c.image,
                  youtubeCount :=
                    ((lookupTP spec.tid s.progress).getD emptyTP).youtubeCount + c.youtube }
                s.progress,
              db := (scrape_keyword spec.env (pyStrip spec.keywords[s.jobIdx])
                spec.scrapePdf spec.scrapeImage spec.scrapeYoutube (some spec.tid)
                (some (effAllowed spec))
                (some ((spec.keywordToFile
                  (pyStrip spec.keywords[s.jobIdx])).getD "unknown"))
                (youtubeSearch (spec.ytOf (pyStrip spec.keywords[s.jobIdx])))
                (imageSearch (spec.imgOf (pyStrip spec.keywords[s.jobIdx])))
                (pdfSearch MAX_PDF_RESULTS_PER_KEYWORD
                  (spec.pdfOf (pyStrip spec.keywords[s.jobIdx])))
                s.db).1,
              jobIdx := s.jobIdx + 1 } := by
          simp [orchStep, hdone, dif_pos hlt, hnc, hkw0, hkw1, hc]
        rw [heq]
        refine ih _ hdone hcanc (by simpa using by omega) ?_
        rw [lookupTP_upsertTP]
        rfl
      · have heq : orchStep spec s = { s with jobIdx := s.jobIdx + 1 } := by
          simp [orchStep, hdone, dif_pos hlt, hnc, hkw0, hkw1]
        rw [heq]
        exact ih _ hdone hcanc (by simpa using by omega) hsome

/-- The whole-run corollary: a full undisturbed run of a failure-free job ends
with the completed status. -/
theorem completeRun_completes (spec : RunSpec) (store : List ScrapedItem)
    (hf : ∀ u, spec.env.flushFails u = false) :
    (lookupTP spec.tid (completeRun spec store).progress).map (fun p => p.status) =
      some "completed" ∧ (completeRun spec store).jobDone = true := by
  have h := run_completes spec hf spec.keywords.length (initState spec store)
    rfl rfl (by simp [initState]) (by simp [initState, lookupTP])
  exact h

/-- A run whose keyword list is empty performs no scraping at all: the store
is untouched and the task completes immediately. -/
theorem completeRun_nil (spec : RunSpec) (hk : spec.keywords = [])
    (store : List ScrapedItem) :
    (completeRun spec store).db.committed = store ∧
    (lookupTP spec.tid (completeRun spec store).progress).map (fun p => p.status) =
      some "completed" := by
  have hlen : spec.keywords.length = 0 := by rw [hk]; rfl
  have h0 : completeRun spec store = orchStep spec (initState spec store) := by
    rw [completeRun, hlen]
    rfl
  have hlt : ¬ 0 < spec.keywords.length := by omega
  have hstep : orchStep spec (initState spec store) =
      { initState spec store with
        progress := setStatusTP spec.tid "completed" (initState spec store).progress,
        jobDone := true } := by
    simp [orchStep, initState, hlt]
  rw [h0, hstep]
  refine ⟨rfl, ?_⟩
  rw [lookupTP_setStatusTP]
  simp [initState, lookupTP]

/-! ## A failed YouTube adapter call is indistinguishable from a disabled one -/

/-- When the YouTube adapter produced no candidates (as after a caught
exception), running scrape_keyword with YouTube enabled gives exactly the same
database and counters as running it with YouTube disabled: the other content
types are unaffected. -/
theorem scrape_keyword_youtube_empty (env : ScrapeEnv) (kw : String)
    (spdf simg : Bool) (tid : Option String) (al : Option (List String))
    (sf : Option String) (img pdf : List AdapterItem) (db : DB) :
    scrape_keyword env kw spdf simg true tid al sf [] img pdf db =
      scrape_keyword env kw spdf simg false tid al sf [] img pdf db := rfl

/-- With YouTube disabled (or, by the previous lemma, failed), the returned
YouTube counter is zero. -/
theorem scrape_keyword_no_youtube_count (env : ScrapeEnv) (kw : String)
    (spdf simg : Bool) (tid : Option String) (al : Option (List String))
    (sf : Option String) (yt img pdf : List AdapterItem) (db : DB)
    (hN : (keys db).Nodup) :
    ∀ c, (scrape_keyword env kw spdf simg false tid al sf yt img pdf db).2 = .ok c →
      c.youtube = 0 := by
  by_cases hb : allowedBlocks al kw = true
  · intro c hc
    rw [scrape_keyword, if_pos hb] at hc
    simp only [Except.ok.injEq] at hc
    rw [← hc]
  · simp only [Bool.not_eq_true] at hb
    have Himg := imgStage_spec env kw tid al sf simg img
      (if simg then typeUrls .image db.session else []) ⟨db, [], ⟨0, 0, 0⟩⟩
      (by intro h; rw [if_pos h]; exact covers_typeUrls .image db) hN
    revert Himg
    cases hr2 : (if simg then imageLoop env kw tid al sf img
        (if simg then typeUrls .image db.session else [])
        (⟨db, [], ⟨0, 0, 0⟩⟩ : LoopState) else .ok ⟨db, [], ⟨0, 0, 0⟩⟩) with
    | err d e =>
      intro _ c hc
      have hres : (scrape_keyword env kw spdf simg false tid al sf yt img pdf db).2 =
          .error e := by
        simp only [scrape_keyword, hb, Bool.false_eq_true, if_false, hr2]
      rw [hres] at hc
      exact absurd hc (by simp)
    | ok ls2 =>
      intro Himg
      obtain ⟨⟨new2, hnew2, hQ2⟩, HN2, _, Hy2, _, _⟩ := Himg
      have Hpdf := pdfStage_spec env kw tid al sf spdf pdf
        (if spdf then typeUrls .pdf db.session else []) ls2
        (by
          intro h
          rw [if_pos h]
          refine covers_extend hnew2 (covers_typeUrls .pdf db) ?_
          intro n hn hct
          obtain ⟨_, _, _, q4, _⟩ := hQ2 n hn
          rw [q4] at hct
          exact absurd hct (by simp)) HN2
      obtain ⟨_, _, _, Hy3, _, _⟩ := Hpdf
      intro c hc
      have hres : (scrape_keyword env kw spdf simg false tid al sf yt img pdf db).2 =
          .ok (if spdf then pdfLoop env kw tid al sf pdf
            (if spdf then typeUrls .pdf db.session else []) ls2 else ls2).counts := by
        simp only [scrape_keyword, hb, Bool.false_eq_true, if_false, hr2]
      rw [hres] at hc
      simp only [Except.ok.injEq] at hc
      rw [← hc, Hy3, Hy2]

/-! ## The upload-order dedup loop and the keyword-to-file map -/

theorem mem_dedupFirstAux (x : String) :
    ∀ (l seen : List String), x ∈ dedupFirstAux seen l ↔ x ∈ l ∧ x ∉ seen := by
  intro l
  induction l with
  | nil => intro seen; simp [dedupFirstAux]
  | cons a rest ih =>
    intro seen
    by_cases ha : a ∈ seen
    · rw [dedupFirstAux, if_pos ha, ih seen]
      constructor
      · rintro ⟨h1, h2⟩
        exact ⟨List.mem_cons_of_mem _ h1, h2⟩
      · rintro ⟨h1, h2⟩
        rcases List.mem_cons.1 h1 with h | h
        · exact absurd (h ▸ ha) h2
        · exact ⟨h, h2⟩
    · rw [dedupFirstAux, if_neg ha]
      constructor
      · intro hx
        rcases List.mem_cons.1 hx with h | h
        · subst h
          exact ⟨List.mem_cons_self _ _, ha⟩
        · obtain ⟨h1, h2⟩ := (ih (a :: seen)).1 h
          exact ⟨List.mem_cons_of_mem _ h1, fun hs => h2 (List.mem_cons_of_mem _ hs)⟩
      · rintro ⟨h1, h2⟩
        rcases List.mem_cons.1 h1 with h | h
        · subst h
          exact List.mem_cons_self _ _
        · by_cases hxa : x = a
          · subst hxa
            exact List.mem_cons_self _ _
          · refine List.mem_cons_of_mem _ ((ih (a :: seen)).2 ⟨h, ?_⟩)
            intro hs
            rcases List.mem_cons.1 hs with hs | hs
            · exact hxa hs
            · exact h2 hs

theorem nodup_dedupFirstAux : ∀ (l seen : List String), (dedupFirstAux seen l).Nodup := by
  intro l
  induction l with
  | nil => intro seen; simp [dedupFirstAux]
  | cons a rest ih =>
    intro seen
    by_cases ha : a ∈ seen
    · rw [dedupFirstAux, if_pos ha]
      exact ih seen
    · rw [dedupFirstAux, if_neg ha]
      refine List.Nodup.cons ?_ (ih (a :: seen))
      intro hmem
      obtain ⟨_, h2⟩ := (mem_dedupFirstAux a rest (a :: seen)).1 hmem
      exact h2 (List.mem_cons_self _ _)

/-- First-seen-wins: the dedup loop keeps a keyword at the position determined
by its first occurrence — the output is the dedup of the input segment before
that first occurrence, then the keyword, then a tail. -/
theorem dedupFirstAux_split (k : String) :
    ∀ (l seen : List String), k ∈ l → k ∉ seen →
      ∃ tail, dedupFirstAux seen l =
        dedupFirstAux seen (l.takeWhile (fun a => !(a == k))) ++ k :: tail := by
  intro l
  induction l with
  | nil => intro seen hk _; exact absurd hk (List.not_mem_nil k)
  | cons a rest ih =>
    intro seen hk hs
    by_cases hak : a = k
    · subst hak
      have htw : (a :: rest).takeWhile (fun x => !(x == a)) = [] := by
        simp [List.takeWhile_cons]
      rw [htw]
      refine ⟨dedupFirstAux (a :: seen) rest, ?_⟩
      simp only [dedupFirstAux]
      rw [if_neg hs]
      simp
    · have hk2 : k ∈ rest := by
        rcases List.mem_cons.1 hk with h | h
        · exact absurd h.symm hak
        · exact h
      have htw : (a :: rest).takeWhile (fun x => !(x == k)) =
          a :: rest.takeWhile (fun x => !(x == k)) := by
        simp [List.takeWhile_cons, hak]
      rw [htw]
      by_cases has : a ∈ seen
      · obtain ⟨tail, htl⟩ := ih seen hk2 hs
        refine ⟨tail, ?_⟩
        simp only [dedupFirstAux]
        simp only [if_pos has]
        exact htl
      · have hs2 : k ∉ a :: seen := by
          intro h
          rcases List.mem_cons.1 h with h | h
          · exact hak h.symm
          · exact hs h
        obtain ⟨tail, htl⟩ := ih (a :: seen) hk2 hs2
        refine ⟨tail, ?_⟩
        simp only [dedupFirstAux]
        simp only [if_neg has]
        rw [htl]
        simp

theorem ktf_foldl_strings (fname k : String) :
    ∀ (l : List String) (m : String → Option String),
      (k ∈ l → l.foldl (fun m' kk => fun q => if q = kk then some fname else m' q) m k =
        some fname) ∧
      (k ∉ l → l.foldl (fun m' kk => fun q => if q = kk then some fname else m' q) m k =
        m k) := by
  intro l
  induction l with
  | nil =>
    intro m
    exact ⟨fun h => absurd h (List.not_mem_nil k), fun _ => rfl⟩
  | cons a rest ih =>
    intro m
    constructor
    · intro hk
      by_cases hkr : k ∈ rest
      · exact (ih _).1 hkr
      · have hka : k = a := by
          rcases List.mem_cons.1 hk with h | h
          · exact h
          · exact absurd h hkr
        rw [List.foldl_cons, (ih _).2 hkr]
        simp [hka]
    · intro hk
      have h1 : k ∉ rest := fun h => hk (List.mem_cons_of_mem _ h)
      have h2 : ¬ k = a := fun h => hk (h ▸ List.mem_cons_self _ _)
      rw [List.foldl_cons, (ih _).2 h1]
      simp [h2]

theorem ktfAddFile_mem (f : CsvFile) (m : String → Option String) (k : String)
    (hk : k ∈ f.keywords) : ktfAddFile f m k = some f.filename :=
  (ktf_foldl_strings f.filename k f.keywords m).1 hk

theorem ktfAddFile_not_mem (f : CsvFile) (m : String → Option String) (k : String)
    (hk : k ∉ f.keywords) : ktfAddFile f m k = m k :=
  (ktf_foldl_strings f.filename k f.keywords m).2 hk

theorem ktf_files_skip (k : String) :
    ∀ (files : List CsvFile) (m : String → Option String),
      (∀ f ∈ files, k ∉ f.keywords) →
      files.foldl (fun m f => ktfAddFile f m) m k = m k := by
  intro files
  induction files with
  | nil => intro m _; rfl
  | cons f rest ih =>
    intro m h
    rw [List.foldl_cons, ih _ (fun g hg => h g (List.mem_cons_of_mem _ hg))]
    exact ktfAddFile_not_mem f m k (h f (List.mem_cons_self _ _))

/-- The keyword_to_file dict records, for every keyword, the LAST uploaded
file containing it. -/
theorem ktfOf_last (fs1 : List CsvFile) (f : CsvFile) (fs2 : List CsvFile)
    (k : String) (hk : k ∈ f.keywords) (h2 : ∀ g ∈ fs2, k ∉ g.keywords) :
    ktfOf (fs1 ++ f :: fs2) k = some f.filename := by
  rw [ktfOf, List.foldl_append, List.foldl_cons,
    ktf_files_skip k fs2 _ h2]
  exact ktfAddFile_mem f _ k hk

theorem keys_eq_storeKeys {db : DB} (hp : db.pending = []) :
    keys db = storeKeys db.committed := by
  simp [keys, DB.session, storeKeys, hp]

/-! ## Claim theorems -/

/-- C1: for every content type, no two persisted Items ever share the same
(url, contentType) pair, across all keywords, tasks and runs: one
scrape_keyword call preserves distinctness of the keys (filtering each
adapter URL against the per-type store scan plus the per-keyword set,
first-seen wins), any event trace of one task preserves it, and so does any
sequence of whole runs over the shared store. -/
theorem c1_dedup_invariant :
    (∀ (env : ScrapeEnv) (kw : String) (spdf simg syt : Bool) (tid : Option String)
      (al : Option (List String)) (sf : Option String)
      (yt img pdf : List AdapterItem) (db : DB),
      db.pending = [] → (keys db).Nodup →
      (keys (scrape_keyword env kw spdf simg syt tid al sf yt img pdf db).1).Nodup) ∧
    (∀ (spec : RunSpec) (store : List ScrapedItem) (evs : List Event),
      (storeKeys store).Nodup → (storeKeys (runStore spec evs store)).Nodup) ∧
    (∀ (runs : List (RunSpec × List Event)) (store : List ScrapedItem),
      (storeKeys store).Nodup →
      (storeKeys (runs.foldl (fun st p => runStore p.1 p.2 st) store)).Nodup) := by
  have h1 : ∀ (env : ScrapeEnv) (kw : String) (spdf simg syt : Bool)
      (tid : Option String) (al : Option (List String)) (sf : Option String)
      (yt img pdf : List AdapterItem) (db : DB),
      db.pending = [] → (keys db).Nodup →
      (keys (scrape_keyword env kw spdf simg syt tid al sf yt img pdf db).1).Nodup :=
    fun env kw spdf simg syt tid al sf yt img pdf db hp hN =>
      (scrape_keyword_sound env kw spdf simg syt tid al sf yt img pdf db hp hN).1
  have h2 : ∀ (spec : RunSpec) (store : List ScrapedItem) (evs : List Event),
      (storeKeys store).Nodup → (storeKeys (runStore spec evs store)).Nodup := by
    intro spec store evs hN
    have H := runTrace_dbinv spec store evs (initState spec store)
      (initState_dbinv spec store hN)
    obtain ⟨hp, hNk, _⟩ := H
    rw [runStore, ← keys_eq_storeKeys hp]
    exact hNk
  refine ⟨h1, h2, ?_⟩
  intro runs
  induction runs with
  | nil => intro store hN; exact hN
  | cons r rest ih =>
    intro store hN
    exact ih _ (h2 r.1 store r.2 hN)

/-- C1 witness: the theorem applied at a concrete call and a concrete run. -/
theorem c1_dedup_invariant_witness :
    (keys (scrape_keyword envPlain "kw" true true true (some "t") (some ["kw"])
      (some "f") [] [] [] ⟨[], []⟩).1).Nodup ∧
    (storeKeys (runStore specC2 [.orch, .orch, .orch] [])).Nodup :=
  ⟨c1_dedup_invariant.1 envPlain "kw" true true true (some "t") (some ["kw"])
      (some "f") [] [] [] ⟨[], []⟩ rfl (by decide),
   c1_dedup_invariant.2.1 specC2 [] [.orch, .orch, .orch] (by decide)⟩

/-- C2 (code bug): in a two-keyword run, a cancellation requested after the
first keyword does stop the second keyword from ever starting (only the alpha
item is persisted and the job exits), and the request itself records the
cancelled status — but the loop-exit assignment of
routes/scraping.py line 151 then unconditionally overwrites the status, so
the task's FINAL status is completed, not cancelled as the claim states. -/
theorem c2_cancellation_boundary_bug :
    (lookupTP "t2" (runTrace specC2 (initState specC2 [])
        [.orch, .cancel "t2"]).progress).map (fun p => p.status) = some "cancelled" ∧
    "t2" ∈ (runTrace specC2 (initState specC2 [])
        [.orch, .cancel "t2", .orch]).cancelled ∧
    ((runTrace specC2 (initState specC2 [])
        [.orch, .cancel "t2", .orch]).db.committed.map (fun it => it.keyword)) =
      ["alpha"] ∧
    (runTrace specC2 (initState specC2 [])
        [.orch, .cancel "t2", .orch]).jobDone = true ∧
    (lookupTP "t2" (runTrace specC2 (initState specC2 [])
        [.orch, .cancel "t2", .orch]).progress).map (fun p => p.status) =
      some "completed" := by
  refine ⟨by decide, by decide, by decide, by decide, by decide⟩

/-- C3 (code bug): terminal statuses are not absorbing.  A task whose status
is the terminal cancelled is flipped to completed by the orchestrator's
loop-exit assignment (line 151); and a task in the error state can be flipped
to cancelled by the cancel endpoint, because the endpoint compares the status
against the literal string error while real error statuses carry a message
suffix. -/
theorem c3_terminal_status_not_absorbing :
    ((lookupTP "t2" (runTrace specC2 (initState specC2 [])
        [.orch, .cancel "t2"]).progress).map (fun p => p.status) = some "cancelled" ∧
     (lookupTP "t2" (orchStep specC2 (runTrace specC2 (initState specC2 [])
        [.orch, .cancel "t2"])).progress).map (fun p => p.status) =
       some "completed") ∧
    ((lookupTP "t4" (completeRun specC4 []).progress).map (fun p => p.status) =
       some "error: db error" ∧
     (lookupTP "t4" (cancelReq "t4" (completeRun specC4 [])).progress).map
       (fun p => p.status) = some "cancelled") := by
  refine ⟨⟨by decide, by decide⟩, by decide, by decide⟩

/-- C4 counterexample: in a run whose second keyword (beta) hits an uncaught
database error on its second candidate, the task does end in the error state,
yet a beta Item is still persisted — the rollback does not remove the failing
keyword's already-committed inserts, contradicting the claim that none of the
failing keyword's Items persist. -/
theorem c4_counterexample :
    (lookupTP "t4" (completeRun specC4 []).progress).map (fun p => p.status) =
      some "error: db error" ∧
    ((completeRun specC4 []).db.committed.map (fun it => it.keyword)) =
      ["alpha", "beta"] := by
  refine ⟨by decide, by decide⟩

/-- C4 (amended): each accepted candidate is committed as its own unit, so an
uncaught exception while scraping a keyword rolls back only that keyword's
UNCOMMITTED writes: the session is left clean and the committed store — the
earlier keywords' items and the failing keyword's already-committed items —
survives; the task transitions to error(message) and, the job being finished,
no later keyword is ever attempted. -/
theorem c4_amended :
    (∀ (env : ScrapeEnv) (kw : String) (spdf simg syt : Bool) (tid : Option String)
      (al : Option (List String)) (sf : Option String)
      (yt img pdf : List AdapterItem) (db : DB) (e : String),
      db.pending = [] → (keys db).Nodup →
      (scrape_keyword env kw spdf simg syt tid al sf yt img pdf db).2 = .error e →
      (scrape_keyword env kw spdf simg syt tid al sf yt img pdf db).1.pending = [] ∧
      ∃ t, (scrape_keyword env kw spdf simg syt tid al sf yt img pdf db).1.committed =
        db.committed ++ t) ∧
    (∀ (spec : RunSpec) (s : SystemState), s.jobDone = true → orchStep spec s = s) ∧
    ((completeRun specC4 []).db.pending = [] ∧
     (lookupTP "t4" (completeRun specC4 []).progress).map (fun p => p.status) =
       some "error: db error" ∧
     ((completeRun specC4 []).db.committed.map (fun it => it.keyword)) =
       ["alpha", "beta"] ∧
     (∀ it ∈ (completeRun specC4 []).db.committed, it.keyword ≠ "gamma")) := by
  refine ⟨?_, orchStep_done, by decide, by decide, by decide, by decide⟩
  intro env kw spdf simg syt tid al sf yt img pdf db e hp hN _
  have H := scrape_keyword_sound env kw spdf simg syt tid al sf yt img pdf db hp hN
  exact ⟨H.2.1, H.2.2.1.imp (fun t ht => ht.1)⟩

/-- C4 amended witness: the theorem applied at the failing concrete call. -/
theorem c4_amended_witness :
    (scrape_keyword envFailB2 "beta" false true false (some "t4")
      (some ["alpha", "beta", "gamma"]) (some "f.csv") []
      [⟨"http://img/beta1.jpg", "b1", "d"⟩, ⟨"http://img/beta2.jpg", "b2", "d"⟩]
      [] ⟨[], []⟩).2 = .error "db error" ∧
    (scrape_keyword envFailB2 "beta" false true false (some "t4")
      (some ["alpha", "beta", "gamma"]) (some "f.csv") []
      [⟨"http://img/beta1.jpg", "b1", "d"⟩, ⟨"http://img/beta2.jpg", "b2", "d"⟩]
      [] ⟨[], []⟩).1.pending = [] ∧
    ∃ t, (scrape_keyword envFailB2 "beta" false true false (some "t4")
      (some ["alpha", "beta", "gamma"]) (some "f.csv") []
      [⟨"http://img/beta1.jpg", "b1", "d"⟩, ⟨"http://img/beta2.jpg", "b2", "d"⟩]
      [] ⟨[], []⟩).1.committed = ([] : List ScrapedItem) ++ t := by
  have H := c4_amended.1 envFailB2 "beta" false true false (some "t4")
    (some ["alpha", "beta", "gamma"]) (some "f.csv") []
    [⟨"http://img/beta1.jpg", "b1", "d"⟩, ⟨"http://img/beta2.jpg", "b2", "d"⟩]
    [] ⟨[], []⟩ "db error" rfl (by decide) (by decide)
  exact ⟨by decide, H.1, H.2⟩

/-- C5: every Item a run persists on top of the incoming store carries the
run's task id and a keyword from the allow-list recorded for that task id
(whenever such a list was recorded, which the upload endpoint guarantees),
and the per-item save step of the manager independently rejects a keyword
outside the allow-list before touching the database. -/
theorem c5_allowlist_invariant :
    (∀ (spec : RunSpec) (store : List ScrapedItem) (evs : List Event),
      spec.allowed ≠ [] → (storeKeys store).Nodup →
      ∃ t, runStore spec evs store = store ++ t ∧
        ∀ x ∈ t, x.taskId = some spec.tid ∧ x.keyword ∈ spec.allowed) ∧
    (∀ (env : ScrapeEnv) (kw : String) (spdf simg syt : Bool) (tid : Option String)
      (l : List String) (sf : Option String) (yt img pdf : List AdapterItem)
      (db : DB), kw ∉ l →
      scrape_keyword env kw spdf simg syt tid (some l) sf yt img pdf db =
        (db, .ok ⟨0, 0, 0⟩)) := by
  refine ⟨?_, scrape_keyword_blocked⟩
  intro spec store evs hne hN
  have heff : effAllowed spec = spec.allowed := by
    rw [effAllowed, if_neg]
    simpa using hne
  have H := runTrace_dbinv spec store evs (initState spec store)
    (initState_dbinv spec store hN)
  obtain ⟨_, _, t, ht, hQ⟩ := H
  exact ⟨t, ht, fun x hx => ⟨(hQ x hx).1, heff ▸ (hQ x hx).2⟩⟩

/-- C5 witness: the theorem applied to a concrete run and a concrete blocked
call. -/
theorem c5_allowlist_invariant_witness :
    (specC2.allowed ≠ [] ∧
     ∃ t, runStore specC2 [.orch, .orch, .orch] [] = ([] : List ScrapedItem) ++ t ∧
       ∀ x ∈ t, x.taskId = some specC2.tid ∧ x.keyword ∈ specC2.allowed) ∧
    ("zeta" ∉ ["alpha"] ∧
     scrape_keyword envPlain "zeta" true true true (some "t") (some ["alpha"])
       (some "f") [] [] [] ⟨[], []⟩ = (⟨[], []⟩, .ok ⟨0, 0, 0⟩)) :=
  ⟨⟨by decide, c5_allowlist_invariant.1 specC2 [] [.orch, .orch, .orch]
      (by decide) (by decide)⟩,
   ⟨by decide, c5_allowlist_invariant.2 envPlain "zeta" true true true (some "t")
      ["alpha"] (some "f") [] [] [] ⟨[], []⟩ (by decide)⟩⟩

/-- C6: a keyword that already has a persisted Item matching (keyword,
sourceFile) is excluded from keywords_to_process and forces resumable mode;
when every uploaded keyword is already scraped, keywords_to_process is empty
and the run completes immediately with the store unchanged. -/
theorem c6_resumability :
    (∀ (files : List CsvFile) (store : List ScrapedItem) (k : String),
      k ∈ uniqueKeywordsOf files →
      keywordScraped store k ((ktfOf files k).getD "unknown") = true →
      resumableModeOf files store = true ∧ k ∉ keywordsToProcessOf files store) ∧
    (∀ (files : List CsvFile) (store : List ScrapedItem) (tid : String)
      (spdf simg syt : Bool) (env : ScrapeEnv)
      (ytOf imgOf pdfOf : String → AdapterCall),
      (∀ k ∈ uniqueKeywordsOf files,
        keywordScraped store k ((ktfOf files k).getD "unknown") = true) →
      uniqueKeywordsOf files ≠ [] →
      keywordsToProcessOf files store = [] ∧
      (completeRun (specOfUpload files store tid spdf simg syt env ytOf imgOf pdfOf)
        store).db.committed = store ∧
      (lookupTP tid (completeRun (specOfUpload files store tid spdf simg syt env
        ytOf imgOf pdfOf) store).progress).map (fun p => p.status) =
        some "completed") := by
  have hres : ∀ (files : List CsvFile) (store : List ScrapedItem) (k : String),
      k ∈ uniqueKeywordsOf files →
      keywordScraped store k ((ktfOf files k).getD "unknown") = true →
      resumableModeOf files store = true := by
    intro files store k hk hs
    have hmem : k ∈ alreadyScrapedOf files store :=
      List.mem_filter.2 ⟨hk, hs⟩
    rw [resumableModeOf, List.isEmpty_eq_false_iff_exists_mem.2 ⟨k, hmem⟩]
    rfl
  constructor
  · intro files store k hk hs
    refine ⟨hres files store k hk hs, ?_⟩
    rw [keywordsToProcessOf, if_pos (by rw [hres files store k hk hs])]
    intro hmem
    have := (List.mem_filter.1 hmem).2
    rw [hs] at this
    exact absurd this (by decide)
  · intro files store tid spdf simg syt env ytOf imgOf pdfOf hall hne
    obtain ⟨k0, hk0⟩ := List.exists_mem_of_ne_nil _ hne
    have hnew : newKeywordsOf files store = [] := by
      rw [newKeywordsOf, List.filter_eq_nil_iff]
      intro a ha
      rw [hall a ha]
      decide
    have hktp : keywordsToProcessOf files store = [] := by
      rw [keywordsToProcessOf,
        if_pos (by rw [hres files store k0 hk0 (hall k0 hk0)]), hnew]
    have hkeys : (specOfUpload files store tid spdf simg syt env
        ytOf imgOf pdfOf).keywords = [] := hktp
    have H := completeRun_nil (specOfUpload files store tid spdf simg syt env
      ytOf imgOf pdfOf) hkeys store
    exact ⟨hktp, H.1, H.2⟩

/-- C6 witness: the theorem applied to an upload whose single keyword already
has a matching persisted Item. -/
theorem c6_resumability_witness :
    ("alpha" ∈ uniqueKeywordsOf [⟨"f.csv", ["alpha"]⟩] ∧
     keywordScraped
       [⟨"alpha", "http://pdf/a.pdf", .pdf, "", "", none, none, none,
         some "t0", some "f.csv"⟩]
       "alpha" ((ktfOf [⟨"f.csv", ["alpha"]⟩] "alpha").getD "unknown") = true ∧
     resumableModeOf [⟨"f.csv", ["alpha"]⟩]
       [⟨"alpha", "http://pdf/a.pdf", .pdf, "", "", none, none, none,
         some "t0", some "f.csv"⟩] = true ∧
     "alpha" ∉ keywordsToProcessOf [⟨"f.csv", ["alpha"]⟩]
       [⟨"alpha", "http://pdf/a.pdf", .pdf, "", "", none, none, none,
         some "t0", some "f.csv"⟩]) ∧
    keywordsToProcessOf [⟨"f.csv", ["alpha"]⟩]
       [⟨"alpha", "http://pdf/a.pdf", .pdf, "", "", none, none, none,
         some "t0", some "f.csv"⟩] = [] := by
  have H1 := c6_resumability.1 [⟨"f.csv", ["alpha"]⟩]
    [⟨"alpha", "http://pdf/a.pdf", .pdf, "", "", none, none, none,
      some "t0", some "f.csv"⟩] "alpha" (by decide) (by decide)
  have H2 := c6_resumability.2 [⟨"f.csv", ["alpha"]⟩]
    [⟨"alpha", "http://pdf/a.pdf", .pdf, "", "", none, none, none,
      some "t0", some "f.csv"⟩] "t" true true true envPlain
    (fun _ => .ok []) (fun _ => .ok []) (fun _ => .ok [])
    (by decide) (by decide)
  exact ⟨⟨by decide, by decide, H1.1, H1.2⟩, H2.1⟩

/-- C7: a mirroring failure never discards the Item.  R2Storage.upload_file
returns (None, None) instead of raising on every failure path — store
unavailable, exception, non-200 download, oversized local file or download —
and at the manager call site every row a scrape commits keeps its original
source URL semantics: when its upload failed or the store was unavailable,
the row is committed with both R2 columns empty, as the concrete run shows. -/
theorem c7_mirroring_failure :
    (∀ (st : R2Settings) (fetch : FetchResult) (h url kw ct : String)
      (iid : Option Nat), st.available = false →
      upload_file st fetch h url kw ct iid = (none, none)) ∧
    (∀ (st : R2Settings) (h url kw ct : String) (iid : Option Nat),
      upload_file st .raised h url kw ct iid = (none, none)) ∧
    (∀ (st : R2Settings) (status n : Nat) (h url kw ct : String) (iid : Option Nat),
      status ≠ 200 →
      upload_file st (.http status n) h url kw ct iid = (none, none)) ∧
    (∀ (st : R2Settings) (n : Nat) (h url kw ct : String) (iid : Option Nat),
      st.maxDownloadSizeMB * 1024 * 1024 < n →
      upload_file st (.localFile n) h url kw ct iid = (none, none)) ∧
    (∀ (st : R2Settings) (n : Nat) (h url kw ct : String) (iid : Option Nat),
      st.maxDownloadSizeMB * 1024 * 1024 < n →
      upload_file st (.http 200 n) h url kw ct iid = (none, none)) ∧
    (∀ (env : ScrapeEnv) (kw : String) (spdf simg syt : Bool) (tid : Option String)
      (al : Option (List String)) (sf : Option String)
      (yt img pdf : List AdapterItem) (db : DB),
      db.pending = [] → (keys db).Nodup →
      ∃ t, (scrape_keyword env kw spdf simg syt tid al sf yt img pdf db).1.committed =
        db.committed ++ t ∧
        ∀ n ∈ t, (uploadOk env n.url = none ∨ env.r2Available = false) →
          n.r2Key = none ∧ n.r2Url = none) ∧
    ((scrape_keyword envUploadNoKey "kw" false true false (some "t7") (some ["kw"])
      (some "f.csv") [] [⟨"http://img/a.jpg", "a", "d"⟩] [] ⟨[], []⟩).1.committed =
      [⟨"kw", "http://img/a.jpg", .image, "a", "d", none, none, none,
        some "t7", some "f.csv"⟩] ∧
     (scrape_keyword envUploadNoKey "kw" false true false (some "t7") (some ["kw"])
      (some "f.csv") [] [⟨"http://img/a.jpg", "a", "d"⟩] [] ⟨[], []⟩).2 =
      .ok ⟨0, 1, 0⟩) := by
  refine ⟨?_, ?_, ?_, ?_, ?_, ?_, by decide, by decide⟩
  · intro st fetch h url kw ct iid hav
    simp [upload_file, hav]
  · intro st h url kw ct iid
    cases hav : st.available <;> simp [upload_file, hav]
  · intro st status n h url kw ct iid hst
    cases hav : st.available <;> simp [upload_file, hav, hst]
  · intro st n h url kw ct iid hsz
    cases hav : st.available <;> simp [upload_file, hav, hsz, Nat.not_le_of_lt hsz]
  · intro st n h url kw ct iid hsz
    cases hav : st.available <;> simp [upload_file, hav, hsz, Nat.not_le_of_lt hsz]
  · intro env kw spdf simg syt tid al sf yt img pdf db hp hN
    obtain ⟨_, _, ⟨t, ht, hQ⟩, _⟩ :=
      scrape_keyword_sound env kw spdf simg syt tid al sf yt img pdf db hp hN
    exact ⟨t, ht, fun n hn => (hQ n hn).2.2.2⟩

/-- C7 witness: the failure equations applied at concrete settings, and the
call-site guarantee applied at the concrete no-key run. -/
theorem c7_mirroring_failure_witness :
    upload_file ⟨false, "https://pub.example", 500⟩ (.http 200 10) "h" "u" "k"
      "image" none = (none, none) ∧
    upload_file ⟨true, "https://pub.example", 500⟩ .raised "h" "u" "k"
      "image" none = (none, none) ∧
    ((404 : Nat) ≠ 200 ∧ upload_file ⟨true, "https://pub.example", 500⟩
      (.http 404 10) "h" "u" "k" "image" none = (none, none)) ∧
    ∃ t, (scrape_keyword envUploadNoKey "kw" false true false (some "t7")
        (some ["kw"]) (some "f.csv") [] [⟨"http://img/a.jpg", "a", "d"⟩] []
        ⟨[], []⟩).1.committed = ([] : List ScrapedItem) ++ t ∧
      ∀ n ∈ t, (uploadOk envUploadNoKey n.url = none ∨
          envUploadNoKey.r2Available = false) →
        n.r2Key = none ∧ n.r2Url = none :=
  ⟨c7_mirroring_failure.1 ⟨false, "https://pub.example", 500⟩ (.http 200 10)
      "h" "u" "k" "image" none rfl,
   c7_mirroring_failure.2.1 ⟨true, "https://pub.example", 500⟩ "h" "u" "k"
      "image" none,
   ⟨by decide, c7_mirroring_failure.2.2.1 ⟨true, "https://pub.example", 500⟩
      404 10 "h" "u" "k" "image" none (by decide)⟩,
   c7_mirroring_failure.2.2.2.2.2.1 envUploadNoKey "kw" false true false
      (some "t7") (some ["kw"]) (some "f.csv") []
      [⟨"http://img/a.jpg", "a", "d"⟩] [] ⟨[], []⟩ rfl (by decide)⟩

/-- C8: a single adapter failure is contained.  A raised YouTube search
returns the empty list; scraping with a failed (empty) YouTube source is
exactly a scrape with YouTube disabled, whose YouTube counter is zero; every
run whose database never fails still ends completed, whatever the adapters
returned; and in the concrete scenario the keyword whose YouTube call raised
still gets its image item, the later keyword is still processed, and the task
completes. -/
theorem c8_adapter_failure_isolated :
    (∀ l, youtubeSearch (.raised l) = []) ∧
    (∀ (env : ScrapeEnv) (kw : String) (spdf simg : Bool) (tid : Option String)
      (al : Option (List String)) (sf : Option String)
      (img pdf : List AdapterItem) (db : DB),
      scrape_keyword env kw spdf simg true tid al sf [] img pdf db =
        scrape_keyword env kw spdf simg false tid al sf [] img pdf db) ∧
    (∀ (env : ScrapeEnv) (kw : String) (spdf simg : Bool) (tid : Option String)
      (al : Option (List String)) (sf : Option String)
      (yt img pdf : List AdapterItem) (db : DB), (keys db).Nodup →
      ∀ c, (scrape_keyword env kw spdf simg false tid al sf yt img pdf db).2 =
        .ok c → c.youtube = 0) ∧
    (∀ (spec : RunSpec) (store : List ScrapedItem),
      (∀ u, spec.env.flushFails u = false) →
      (lookupTP spec.tid (completeRun spec store).progress).map (fun p => p.status) =
        some "completed") ∧
    ((lookupTP "t8" (completeRun specC8 []).progress).map
        (fun p => (p.status, p.youtubeCount, p.imageCount)) =
      some ("completed", 1, 2) ∧
     ((completeRun specC8 []).db.committed.map
        (fun it => (it.keyword, it.contentType))) =
      [("alpha", .youtube), ("alpha", .image), ("beta", .image)]) := by
  refine ⟨fun l => rfl, ?_, ?_, ?_, by decide, by decide⟩
  · intro env kw spdf simg tid al sf img pdf db
    exact scrape_keyword_youtube_empty env kw spdf simg tid al sf img pdf db
  · intro env kw spdf simg tid al sf yt img pdf db hN
    exact scrape_keyword_no_youtube_count env kw spdf simg tid al sf yt img pdf db hN
  · intro spec store hf
    exact (completeRun_completes spec store hf).1

/-- C8 witness: the general parts applied at the concrete scenario. -/
theorem c8_adapter_failure_isolated_witness :
    scrape_keyword envPlain "beta" false true true (some "t8")
      (some ["alpha", "beta"]) (some "f.csv") []
      [⟨"http://img/beta.jpg", "beta", "d"⟩] [] ⟨[], []⟩ =
    scrape_keyword envPlain "beta" false true false (some "t8")
      (some ["alpha", "beta"]) (some "f.csv") []
      [⟨"http://img/beta.jpg", "beta", "d"⟩] [] ⟨[], []⟩ ∧
    (lookupTP "t8" (completeRun specC8 []).progress).map (fun p => p.status) =
      some "completed" :=
  ⟨c8_adapter_failure_isolated.2.1 envPlain "beta" false true (some "t8")
      (some ["alpha", "beta"]) (some "f.csv")
      [⟨"http://img/beta.jpg", "beta", "d"⟩] [] ⟨[], []⟩,
   c8_adapter_failure_isolated.2.2.2.1 specC8 [] (fun _ => rfl)⟩

/-- C9: the per-keyword counters a scrape_keyword call returns never exceed
the configured caps: at most MAX_RESULTS_PER_KEYWORD images and videos and at
most MAX_PDF_RESULTS_PER_KEYWORD documents. -/
theorem c9_result_caps (env : ScrapeEnv) (kw : String) (spdf simg syt : Bool)
    (tid : Option String) (al : Option (List String)) (sf : Option String)
    (yt img pdf : List AdapterItem) (db : DB)
    (hp : db.pending = []) (hN : (keys db).Nodup) :
    ∀ c, (scrape_keyword env kw spdf simg syt tid al sf yt img pdf db).2 = .ok c →
      c.youtube ≤ MAX_RESULTS_PER_KEYWORD ∧ c.image ≤ MAX_RESULTS_PER_KEYWORD ∧
      c.pdf ≤ MAX_PDF_RESULTS_PER_KEYWORD :=
  (scrape_keyword_sound env kw spdf simg syt tid al sf yt img pdf db hp hN).2.2.2

/-- C9 witness: the theorem applied to a call offered five image candidates,
of which exactly the cap of two is accepted. -/
theorem c9_result_caps_witness :
    (scrape_keyword envPlain "kw" false true false (some "t9") (some ["kw"])
      (some "f") []
      [⟨"http://img/1.jpg", "", ""⟩, ⟨"http://img/2.jpg", "", ""⟩,
       ⟨"http://img/3.jpg", "", ""⟩, ⟨"http://img/4.jpg", "", ""⟩,
       ⟨"http://img/5.jpg", "", ""⟩] [] ⟨[], []⟩).2 = .ok ⟨0, 2, 0⟩ ∧
    ((0 : Nat) ≤ MAX_RESULTS_PER_KEYWORD ∧ (2 : Nat) ≤ MAX_RESULTS_PER_KEYWORD ∧
      (0 : Nat) ≤ MAX_PDF_RESULTS_PER_KEYWORD) :=
  ⟨by decide,
   by
    have H := c9_result_caps envPlain "kw" false true false (some "t9")
      (some ["kw"]) (some "f") []
      [⟨"http://img/1.jpg", "", ""⟩, ⟨"http://img/2.jpg", "", ""⟩,
       ⟨"http://img/3.jpg", "", ""⟩, ⟨"http://img/4.jpg", "", ""⟩,
       ⟨"http://img/5.jpg", "", ""⟩] [] ⟨[], []⟩ rfl (by decide)
      ⟨0, 2, 0⟩ (by decide)
    exact ⟨H.1, H.2⟩⟩

/-- C10: a keyword appearing in several uploaded files is processed once, at
the position of its first occurrence in upload order (the deduped list is
nodup, has the same members as the concatenation, and decomposes at the first
occurrence), while the source file recorded for it is the LAST uploaded file
containing it. -/
theorem c10_duplicate_keyword_files :
    (∀ (files : List CsvFile), (uniqueKeywordsOf files).Nodup) ∧
    (∀ (files : List CsvFile) (k : String),
      k ∈ uniqueKeywordsOf files ↔ k ∈ allKeywordsOf files) ∧
    (∀ (files : List CsvFile) (k : String), k ∈ allKeywordsOf files →
      ∃ tail, uniqueKeywordsOf files =
        dedupFirstAux [] ((allKeywordsOf files).takeWhile (fun a => !(a == k))) ++
          k :: tail) ∧
    (∀ (fs1 : List CsvFile) (f : CsvFile) (fs2 : List CsvFile) (k : String),
      k ∈ f.keywords → (∀ g ∈ fs2, k ∉ g.keywords) →
      ktfOf (fs1 ++ f :: fs2) k = some f.filename) := by
  refine ⟨?_, ?_, ?_, ktfOf_last⟩
  · intro files
    exact nodup_dedupFirstAux (allKeywordsOf files) []
  · intro files k
    rw [uniqueKeywordsOf, mem_dedupFirstAux]
    simp
  · intro files k hk
    exact dedupFirstAux_split k (allKeywordsOf files) [] hk (List.not_mem_nil k)

/-- C10 witness: the theorem applied to two files sharing a keyword: the
keyword is kept once at its first position while its recorded file is the
second one. -/
theorem c10_duplicate_keyword_files_witness :
    (uniqueKeywordsOf [⟨"a.csv", ["k1", "k2"]⟩, ⟨"b.csv", ["k2", "k3"]⟩]).Nodup ∧
    uniqueKeywordsOf [⟨"a.csv", ["k1", "k2"]⟩, ⟨"b.csv", ["k2", "k3"]⟩] =
      ["k1", "k2", "k3"] ∧
    ("k2" ∈ (⟨"b.csv", ["k2", "k3"]⟩ : CsvFile).keywords ∧
     ktfOf ([⟨"a.csv", ["k1", "k2"]⟩] ++ (⟨"b.csv", ["k2", "k3"]⟩ : CsvFile) :: [])
       "k2" = some "b.csv") :=
  ⟨c10_duplicate_keyword_files.1 [⟨"a.csv", ["k1", "k2"]⟩, ⟨"b.csv", ["k2", "k3"]⟩],
   by decide,
   ⟨by decide,
    c10_duplicate_keyword_files.2.2.2 [⟨"a.csv", ["k1", "k2"]⟩]
      ⟨"b.csv", ["k2", "k3"]⟩ [] "k2" (by decide) (by decide)⟩⟩

end Pipeline
